import Mathlib

/-!
Verification of the Cafe24 POS backend business logic against its
natural-language specification.  The Python source is shallowly embedded:
`Decimal` arithmetic is modelled by exact rationals `ℚ`, integer amounts by
`ℤ`/`ℕ`, database rows by structures and tables by lists, and fallible
routes by an explicit result type that carries the (rolled-back) state on
error.
-/

namespace Cafe24

/-- Python `Decimal.to_integral_value(rounding=ROUND_HALF_UP)`: round to the
nearest integer, with a tie of exactly one half rounding away from zero. -/
def roundHalfAwayZero (q : ℚ) : ℤ :=
  if 0 ≤ q then ⌊q + 1 / 2⌋ else -⌊-q + 1 / 2⌋

/-- Embedding of `calculate_lbp_price` (`app/utils/helpers.py`, lines 38-60).
The `price_usd is None` guard becomes an `Option` match; the exchange-rate /
rounding-factor defaulting from configuration becomes explicit parameters;
the `rounding_factor == 0` branch rounds the raw product half-up, otherwise
the quotient by the factor is rounded half-up and scaled back. -/
def calculate_lbp_price (price_usd : Option ℚ) (exchange_rate : ℚ)
    (rounding_factor : ℤ) : Option ℤ :=
  match price_usd with
  | none => none
  | some p =>
    let lbp_unrounded := p * exchange_rate
    if rounding_factor = 0 then
      some (roundHalfAwayZero lbp_unrounded)
    else
      some (roundHalfAwayZero (lbp_unrounded / (rounding_factor : ℚ)) * rounding_factor)

lemma roundHalfAwayZero_sub_le (q : ℚ) :
    |((roundHalfAwayZero q : ℤ) : ℚ) - q| ≤ 1 / 2 := by
  unfold roundHalfAwayZero
  by_cases h : 0 ≤ q
  · simp only [h, if_true]
    have h1 : ((⌊q + 1 / 2⌋ : ℤ) : ℚ) ≤ q + 1 / 2 := Int.floor_le _
    have h2 : q + 1 / 2 < (⌊q + 1 / 2⌋ : ℤ) + 1 := Int.lt_floor_add_one _
    rw [abs_le]
    constructor <;> linarith
  · simp only [h, if_false]
    have h1 : ((⌊-q + 1 / 2⌋ : ℤ) : ℚ) ≤ -q + 1 / 2 := Int.floor_le _
    have h2 : -q + 1 / 2 < (⌊-q + 1 / 2⌋ : ℤ) + 1 := Int.lt_floor_add_one _
    rw [abs_le]
    push_cast
    constructor <;> linarith

lemma roundHalfAwayZero_tie (q : ℚ)
    (h : |((roundHalfAwayZero q : ℤ) : ℚ) - q| = 1 / 2) :
    |((roundHalfAwayZero q : ℤ) : ℚ)| = |q| + 1 / 2 := by
  unfold roundHalfAwayZero at *
  by_cases hq : 0 ≤ q
  · simp only [hq, if_true] at h ⊢
    have h2 : q + 1 / 2 < (⌊q + 1 / 2⌋ : ℤ) + 1 := Int.lt_floor_add_one _
    have heq : ((⌊q + 1 / 2⌋ : ℤ) : ℚ) - q = 1 / 2 := by
      rcases abs_eq (by norm_num : (0 : ℚ) ≤ 1 / 2) |>.mp h with h' | h'
      · exact h'
      · linarith
    rw [abs_of_nonneg hq, abs_of_nonneg (by linarith)]
    linarith
  · simp only [hq, if_false] at h ⊢
    push_cast at h ⊢
    have h2 : -q + 1 / 2 < (⌊-q + 1 / 2⌋ : ℤ) + 1 := Int.lt_floor_add_one _
    have heq : ((⌊-q + 1 / 2⌋ : ℤ) : ℚ) - (-q) = 1 / 2 := by
      rcases abs_eq (by norm_num : (0 : ℚ) ≤ 1 / 2) |>.mp h with h' | h'
      · linarith
      · linarith
    push_neg at hq
    rw [abs_of_nonpos (by linarith), abs_of_neg hq]
    linarith

/-- On a positive granularity `f`, `calculate_lbp_price` lands within `f/2`
of the unrounded product, and an exact tie lies away from zero. -/
lemma calculate_lbp_price_close (p rate : ℚ) (f : ℤ) (hf : 0 < f) :
    calculate_lbp_price (some p) rate f
      = some (roundHalfAwayZero (p * rate / (f : ℚ)) * f) ∧
    |((roundHalfAwayZero (p * rate / (f : ℚ)) * f : ℤ) : ℚ) - p * rate| ≤ (f : ℚ) / 2 ∧
    (|((roundHalfAwayZero (p * rate / (f : ℚ)) * f : ℤ) : ℚ) - p * rate| = (f : ℚ) / 2 →
      |((roundHalfAwayZero (p * rate / (f : ℚ)) * f : ℤ) : ℚ)| = |p * rate| + (f : ℚ) / 2) := by
  have hfQ : (0 : ℚ) < (f : ℚ) := by exact_mod_cast hf
  have hfne : (f : ℚ) ≠ 0 := ne_of_gt hfQ
  set x : ℚ := p * rate with hx
  set n : ℤ := roundHalfAwayZero (x / (f : ℚ)) with hn
  have hsplit : ((n * f : ℤ) : ℚ) - x = ((n : ℚ) - x / (f : ℚ)) * (f : ℚ) := by
    field_simp
  refine ⟨?_, ?_, ?_⟩
  · simp [calculate_lbp_price, hx, hn, ne_of_gt hf]
  · rw [hsplit, abs_mul, abs_of_pos hfQ]
    have := roundHalfAwayZero_sub_le (x / (f : ℚ))
    calc |(n : ℚ) - x / (f : ℚ)| * (f : ℚ) ≤ (1 / 2) * (f : ℚ) := by
          exact mul_le_mul_of_nonneg_right this (le_of_lt hfQ)
      _ = (f : ℚ) / 2 := by ring
  · intro htie
    rw [hsplit, abs_mul, abs_of_pos hfQ] at htie
    have htie' : |(n : ℚ) - x / (f : ℚ)| = 1 / 2 := by
      have hmul : |(n : ℚ) - x / (f : ℚ)| * (f : ℚ) = (1 / 2) * (f : ℚ) := by
        rw [htie]; ring
      exact mul_right_cancel₀ hfne hmul
    have haway := roundHalfAwayZero_tie (x / (f : ℚ)) htie'
    have : ((n * f : ℤ) : ℚ) = (n : ℚ) * (f : ℚ) := by push_cast; ring
    rw [this, abs_mul, abs_of_pos hfQ, haway]
    rw [abs_div, abs_of_pos hfQ]
    field_simp
    ring

/-- Among the multiples of a positive `f`, an element within `f/2` of `x` is
at least as close to `x` as any other multiple. -/
lemma nearest_multiple (x : ℚ) (f : ℤ) (hf : 0 < f) (n m : ℤ) (hn : f ∣ n) (hm : f ∣ m)
    (hclose : |(n : ℚ) - x| ≤ (f : ℚ) / 2) : |(n : ℚ) - x| ≤ |(m : ℚ) - x| := by
  have hfQ : (0 : ℚ) < (f : ℚ) := by exact_mod_cast hf
  by_cases hmn : m = n
  · subst hmn; exact le_refl _
  · obtain ⟨a, ha⟩ := hn
    obtain ⟨b, hb⟩ := hm
    have hab : a ≠ b := by
      intro h; apply hmn; rw [ha, hb, h]
    have hgap : (f : ℚ) ≤ |(m : ℚ) - (n : ℚ)| := by
      have : (m : ℚ) - (n : ℚ) = ((b - a : ℤ) : ℚ) * (f : ℚ) := by
        rw [ha, hb]; push_cast; ring
      rw [this, abs_mul, abs_of_pos hfQ]
      have h1 : (1 : ℚ) ≤ |((b - a : ℤ) : ℚ)| := by
        rw [← Int.cast_abs]
        have : (1 : ℤ) ≤ |b - a| := Int.one_le_abs (sub_ne_zero.mpr (Ne.symm hab))
        exact_mod_cast this
      nlinarith
    have htri : |(m : ℚ) - (n : ℚ)| ≤ |(m : ℚ) - x| + |(n : ℚ) - x| := by
      calc |(m : ℚ) - (n : ℚ)| = |((m : ℚ) - x) - ((n : ℚ) - x)| := by ring_nf
        _ ≤ |(m : ℚ) - x| + |(n : ℚ) - x| := abs_sub _ _
    linarith

/-- C3: for every non-null USD amount, rate, and positive granularity,
`calculate_lbp_price` returns a multiple of the granularity that is the
nearest such multiple to `amount * rate` under round-half-up with ties away
from zero; the listed concrete triples evaluate as stated; granularity zero
falls back to round-half-up to the nearest integer; a null amount yields
`none`, not zero and not an error. -/
theorem claim_C3_currency_rounding :
    (∀ p rate : ℚ, ∀ f : ℤ, 0 < f →
      ∃ n : ℤ, calculate_lbp_price (some p) rate f = some n ∧ f ∣ n ∧
        (∀ m : ℤ, f ∣ m → |(n : ℚ) - p * rate| ≤ |(m : ℚ) - p * rate|) ∧
        (|(n : ℚ) - p * rate| = (f : ℚ) / 2 → |(n : ℚ)| = |p * rate| + (f : ℚ) / 2)) ∧
    calculate_lbp_price (some (1 / 2)) 90000 5000 = some 45000 ∧
    calculate_lbp_price (some (66 / 100)) 90000 5000 = some 60000 ∧
    calculate_lbp_price (some (3 / 100)) 90000 5000 = some 5000 ∧
    (∀ p rate : ℚ, ∃ n : ℤ, calculate_lbp_price (some p) rate 0 = some n ∧
        |(n : ℚ) - p * rate| ≤ 1 / 2 ∧
        (|(n : ℚ) - p * rate| = 1 / 2 → |(n : ℚ)| = |p * rate| + 1 / 2)) ∧
    (∀ rate : ℚ, ∀ f : ℤ, calculate_lbp_price none rate f = none) := by
  refine ⟨?_, ?_, ?_, ?_, ?_, ?_⟩
  · intro p rate f hf
    obtain ⟨heq, hclose, htie⟩ := calculate_lbp_price_close p rate f hf
    refine ⟨roundHalfAwayZero (p * rate / (f : ℚ)) * f, heq, Dvd.intro_left _ rfl, ?_, htie⟩
    intro m hm
    exact nearest_multiple (p * rate) f hf _ m (Dvd.intro_left _ rfl) hm hclose
  · norm_num [calculate_lbp_price, roundHalfAwayZero]
  · norm_num [calculate_lbp_price, roundHalfAwayZero]
  · norm_num [calculate_lbp_price, roundHalfAwayZero]
  · intro p rate
    refine ⟨roundHalfAwayZero (p * rate), by simp [calculate_lbp_price], ?_, ?_⟩
    · exact roundHalfAwayZero_sub_le (p * rate)
    · exact roundHalfAwayZero_tie (p * rate)
  · intro rate f
    rfl

/-- Witness for C3: the general clause applied at the concrete triple
`(0.03, 90000, 5000)`, whose granularity hypothesis is discharged there. -/
theorem claim_C3_currency_rounding_witness :
    (0 : ℤ) < 5000 ∧
    (∃ n : ℤ, calculate_lbp_price (some (3 / 100)) 90000 5000 = some n ∧ (5000 : ℤ) ∣ n ∧
      (∀ m : ℤ, (5000 : ℤ) ∣ m →
        |(n : ℚ) - 3 / 100 * 90000| ≤ |(m : ℚ) - 3 / 100 * 90000|) ∧
      (|(n : ℚ) - 3 / 100 * 90000| = (5000 : ℚ) / 2 →
        |(n : ℚ)| = |(3 : ℚ) / 100 * 90000| + (5000 : ℚ) / 2)) :=
  ⟨by norm_num,
   by
    have h := claim_C3_currency_rounding.1 (3 / 100) 90000 5000 (by norm_num)
    simpa using h⟩

/-! ## Stock ledger (`app/routes/order_routes.py` and `app/routes/stock_routes.py`) -/

/-- A `Recipe` row: quantity of `ingredient_id` consumed per unit of
`menu_item_id` sold. -/
structure Recipe where
  menu_item_id : ℕ
  ingredient_id : ℕ
  amount : ℚ
deriving DecidableEq

/-- An `Ingredient` row (the fields the stock logic reads). -/
structure Ingredient where
  id : ℕ
  name : String
  unit : String
  current_stock : ℚ
  is_active : Bool
deriving DecidableEq

/-- A `StockAdjustment` row: the append-only ledger backing `current_stock`. -/
structure StockAdjustment where
  ingredient_id : ℕ
  change_amount : ℚ
  reason : String
  user_id : ℕ
deriving DecidableEq

/-- One entry of `order_items_data` handed to `check_and_deduct_stock`. -/
structure StockLine where
  menu_item_id : ℕ
  quantity : ℤ
deriving DecidableEq

/-- One insufficient-stock descriptor collected by `check_and_deduct_stock`. -/
structure Shortage where
  name : String
  needed : ℚ
  available : ℚ
  unit : String
deriving DecidableEq

/-- The ingredient table together with its adjustment ledger. -/
structure StockState where
  ingredients : List Ingredient
  adjustments : List StockAdjustment
deriving DecidableEq

/-- `Ingredient.query.get(ingredient_id)`: primary-key lookup. -/
def findIngredient (ings : List Ingredient) (i : ℕ) : Option Ingredient :=
  ings.find? (fun g => g.id = i)

/-- One update of the `ingredient_requirements` dict: add `amt` under key
`ing`, preserving Python's dict insertion order. -/
def addRequirement (reqs : List (ℕ × ℚ)) (ing : ℕ) (amt : ℚ) : List (ℕ × ℚ) :=
  if (reqs.find? (fun p => p.1 = ing)).isSome then
    reqs.map (fun p => if p.1 = ing then (p.1, p.2 + amt) else p)
  else
    reqs ++ [(ing, amt)]

/-- The first loop of `check_and_deduct_stock` (order_routes.py lines 26-43):
for each order line, for each recipe of its menu item, accumulate
`recipe.amount * quantity` into the per-ingredient requirement dict. -/
def ingredientRequirements (recipes : List Recipe) (items : List StockLine) :
    List (ℕ × ℚ) :=
  items.foldl
    (fun reqs item =>
      (recipes.filter (fun r => r.menu_item_id = item.menu_item_id)).foldl
        (fun reqs r => addRequirement reqs r.ingredient_id (r.amount * (item.quantity : ℚ)))
        reqs)
    []

/-- The validation pass (lines 45-58): walk the requirement dict and collect a
shortage descriptor for every active, existing ingredient whose stock is
below its aggregate requirement; missing or inactive ingredients are skipped. -/
def collectShortages (ings : List Ingredient) (reqs : List (ℕ × ℚ)) : List Shortage :=
  reqs.foldl
    (fun acc p =>
      match findIngredient ings p.1 with
      | none => acc
      | some ing =>
        if !ing.is_active then acc
        else if ing.current_stock < p.2 then
          acc ++ [⟨ing.name, p.2, ing.current_stock, ing.unit⟩]
        else acc)
    []

/-- One step of the deduction pass (lines 67-83): decrement the ingredient's
stock by its aggregate requirement and append the matching negative-delta
ledger record; missing or inactive ingredients are skipped. -/
def deductOne (user_id : ℕ) (st : StockState) (p : ℕ × ℚ) : StockState :=
  match findIngredient st.ingredients p.1 with
  | none => st
  | some ing =>
    if !ing.is_active then st
    else
      { ingredients := st.ingredients.map
          (fun g => if g.id = p.1 then { g with current_stock := g.current_stock - p.2 } else g),
        adjustments := st.adjustments ++
          [⟨p.1, -p.2, "Order placement - automatic deduction", user_id⟩] }

/-- Embedding of `check_and_deduct_stock` (order_routes.py lines 21-85):
aggregate requirements over the whole order, enumerate every shortage, and
only when no shortage exists run the deduction pass.  The Python function
raises `ValueError` with a message listing all collected shortages; the
error branch carries that full list. -/
def check_and_deduct_stock (recipes : List Recipe) (st : StockState)
    (order_items_data : List StockLine) (user_id : ℕ) :
    Except (List Shortage) StockState :=
  let reqs := ingredientRequirements recipes order_items_data
  let shorts := collectShortages st.ingredients reqs
  if shorts.isEmpty then .ok (reqs.foldl (deductOne user_id) st)
  else .error shorts

/-- Spec-side aggregate requirement of one ingredient for a whole order:
the sum over all order lines of `recipe.amount * quantity` over the recipes
that tie that line's menu item to the ingredient. -/
def totalRequired (recipes : List Recipe) (items : List StockLine) (ingId : ℕ) : ℚ :=
  (items.map (fun it =>
    (((recipes.filter (fun r => r.menu_item_id = it.menu_item_id)).filter
        (fun r => r.ingredient_id = ingId)).map
      (fun r => r.amount * (it.quantity : ℚ))).sum)).sum

/-- The value stored in the requirement dict under a key (0 when absent). -/
def reqAmount (reqs : List (ℕ × ℚ)) (i : ℕ) : ℚ :=
  match reqs.find? (fun p => p.1 = i) with
  | some p => p.2
  | none => 0

/-- An ingredient is referenced by an order when some line's menu item has a
recipe using it. -/
def references (recipes : List Recipe) (items : List StockLine) (i : ℕ) : Prop :=
  ∃ it ∈ items, ∃ r ∈ recipes, r.menu_item_id = it.menu_item_id ∧ r.ingredient_id = i

/-- Whether the requirement dict has an entry under key `i`. -/
def hasKey (reqs : List (ℕ × ℚ)) (i : ℕ) : Bool :=
  (reqs.find? (fun p => p.1 = i)).isSome

lemma find?_map_keyfix (reqs : List (ℕ × ℚ)) (j : ℕ) (a : ℚ) (i : ℕ) :
    (reqs.map (fun p => if p.1 = j then (p.1, p.2 + a) else p)).find? (fun p => p.1 = i)
      = (reqs.find? (fun p => p.1 = i)).map (fun p => if p.1 = j then (p.1, p.2 + a) else p) := by
  induction reqs with
  | nil => simp
  | cons q t ih =>
    by_cases hq : q.1 = i
    · by_cases hj : q.1 = j
      · have hij : i = j := by rw [← hq, hj]
        simp [List.find?_cons, hq, hj, hij]
      · have hij : ¬ i = j := fun h => hj (hq.trans h)
        simp [List.find?_cons, hq, hj, hij]
    · by_cases hj : q.1 = j
      · have hji : ¬ j = i := fun h => hq (hj.trans h)
        simp [List.find?_cons, hq, hj, hji, ih]
      · simp [List.find?_cons, hq, hj, ih]

lemma hasKey_cons (q : ℕ × ℚ) (t : List (ℕ × ℚ)) (i : ℕ) :
    hasKey (q :: t) i = (q.1 = i || hasKey t i) := by
  by_cases hq : q.1 = i <;> simp [hasKey, List.find?_cons, hq]

lemma reqAmount_cons_pos (q : ℕ × ℚ) (t : List (ℕ × ℚ)) (i : ℕ) (h : q.1 = i) :
    reqAmount (q :: t) i = q.2 := by
  unfold reqAmount
  rw [List.find?_cons_of_pos _ (by simpa using h)]

lemma reqAmount_cons_neg (q : ℕ × ℚ) (t : List (ℕ × ℚ)) (i : ℕ) (h : ¬ q.1 = i) :
    reqAmount (q :: t) i = reqAmount t i := by
  unfold reqAmount
  rw [List.find?_cons_of_neg _ (by simpa using h)]

lemma reqAmount_append_single (reqs : List (ℕ × ℚ)) (j : ℕ) (a : ℚ) (i : ℕ) :
    reqAmount (reqs ++ [(j, a)]) i
      = if hasKey reqs i then reqAmount reqs i
        else if i = j then a else 0 := by
  induction reqs with
  | nil =>
    by_cases h : i = j
    · subst h
      rw [List.nil_append, reqAmount_cons_pos ((i, a)) [] i rfl]
      simp [hasKey]
    · have hne : ¬ (j, a).1 = i := by simpa using fun hh => h hh.symm
      rw [List.nil_append, reqAmount_cons_neg ((j, a)) [] i hne]
      simp [hasKey, h, reqAmount]
  | cons q t ih =>
    by_cases hq : q.1 = i
    · rw [List.cons_append, reqAmount_cons_pos q _ i hq, hasKey_cons]
      simp [hq, reqAmount_cons_pos q t i hq]
    · rw [List.cons_append, reqAmount_cons_neg q _ i hq, hasKey_cons, ih]
      simp [hq, reqAmount_cons_neg q t i hq]

lemma reqAmount_addRequirement (reqs : List (ℕ × ℚ)) (j : ℕ) (a : ℚ) (i : ℕ) :
    reqAmount (addRequirement reqs j a) i
      = if i = j then reqAmount reqs i + a else reqAmount reqs i := by
  unfold addRequirement
  by_cases hpres : (reqs.find? (fun p => p.1 = j)).isSome
  · rw [if_pos hpres]
    unfold reqAmount
    rw [find?_map_keyfix]
    by_cases hij : i = j
    · subst hij
      cases hfind : reqs.find? (fun p => p.1 = i) with
      | none => simp [hfind] at hpres
      | some p =>
        have hp : p.1 = i := by simpa using List.find?_some hfind
        simp [hfind, hp]
    · cases hfind : reqs.find? (fun p => p.1 = i) with
      | none => simp [hij]
      | some p =>
        have hp : p.1 = i := by simpa using List.find?_some hfind
        have : ¬ p.1 = j := fun h => hij (hp.symm.trans h)
        simp [hij, this]
  · rw [if_neg hpres, reqAmount_append_single]
    by_cases hij : i = j
    · subst hij
      have hnone : reqs.find? (fun p => p.1 = i) = none := Option.not_isSome_iff_eq_none.mp hpres
      have hk : hasKey reqs i = false := by simp [hasKey, hnone]
      simp [hk, reqAmount, hnone]
    · simp only [hij, if_false]
      by_cases hk : hasKey reqs i
      · simp [hk]
      · have hnone : reqs.find? (fun p => p.1 = i) = none := by
          cases hfind : reqs.find? (fun p => p.1 = i) with
          | none => rfl
          | some p => exact absurd (by simp [hasKey, hfind]) hk
        simp [hk, hij, reqAmount, hnone]

lemma hasKey_append_single (reqs : List (ℕ × ℚ)) (j : ℕ) (a : ℚ) (i : ℕ) :
    hasKey (reqs ++ [(j, a)]) i = (hasKey reqs i || j = i) := by
  induction reqs with
  | nil => by_cases h : j = i <;> simp [hasKey, List.find?_cons, h]
  | cons q t ih => rw [List.cons_append, hasKey_cons, hasKey_cons, ih, Bool.or_assoc]

lemma hasKey_addRequirement (reqs : List (ℕ × ℚ)) (j : ℕ) (a : ℚ) (i : ℕ) :
    hasKey (addRequirement reqs j a) i = (hasKey reqs i || j = i) := by
  unfold addRequirement
  by_cases hpres : (reqs.find? (fun p => p.1 = j)).isSome
  · rw [if_pos hpres]
    have hmap : hasKey (reqs.map (fun p => if p.1 = j then (p.1, p.2 + a) else p)) i
        = hasKey reqs i := by
      unfold hasKey
      rw [find?_map_keyfix]
      cases reqs.find? (fun p => p.1 = i) <;> simp
    rw [hmap]
    by_cases hij : j = i
    · subst hij
      have : hasKey reqs j := by simpa [hasKey] using hpres
      simp [this]
    · simp [hij]
  · rw [if_neg hpres, hasKey_append_single]

lemma reqAmount_inner_fold (q : ℚ) (rs : List Recipe) :
    ∀ (reqs : List (ℕ × ℚ)) (i : ℕ),
    reqAmount (rs.foldl (fun reqs r => addRequirement reqs r.ingredient_id (r.amount * q)) reqs) i
      = reqAmount reqs i + ((rs.filter (fun r => r.ingredient_id = i)).map
          (fun r => r.amount * q)).sum := by
  induction rs with
  | nil => intro reqs i; simp
  | cons r rs ih =>
    intro reqs i
    rw [List.foldl_cons, ih, reqAmount_addRequirement]
    by_cases h : r.ingredient_id = i
    · rw [if_pos h.symm, List.filter_cons, if_pos (by simpa using h), List.map_cons,
        List.sum_cons]
      ring
    · rw [if_neg (fun hh => h hh.symm), List.filter_cons, if_neg (by simpa using h)]

lemma hasKey_inner_fold (q : ℚ) (rs : List Recipe) :
    ∀ (reqs : List (ℕ × ℚ)) (i : ℕ),
    hasKey (rs.foldl (fun reqs r => addRequirement reqs r.ingredient_id (r.amount * q)) reqs) i
      = (hasKey reqs i || rs.any (fun r => r.ingredient_id = i)) := by
  induction rs with
  | nil => intro reqs i; simp
  | cons r rs ih =>
    intro reqs i
    rw [List.foldl_cons, ih, hasKey_addRequirement, List.any_cons, Bool.or_assoc]

lemma reqAmount_outer_fold (recipes : List Recipe) (items : List StockLine) :
    ∀ (reqs : List (ℕ × ℚ)) (i : ℕ),
    reqAmount (items.foldl
        (fun reqs item =>
          (recipes.filter (fun r => r.menu_item_id = item.menu_item_id)).foldl
            (fun reqs r => addRequirement reqs r.ingredient_id (r.amount * (item.quantity : ℚ)))
            reqs)
        reqs) i
      = reqAmount reqs i + totalRequired recipes items i := by
  induction items with
  | nil => intro reqs i; simp [totalRequired]
  | cons it items ih =>
    intro reqs i
    rw [List.foldl_cons, ih, reqAmount_inner_fold]
    simp [totalRequired]
    ring

/-- The requirement dict built by `check_and_deduct_stock` stores, under each
ingredient, exactly the aggregate requirement summed across all order lines. -/
lemma reqAmount_ingredientRequirements (recipes : List Recipe) (items : List StockLine) (i : ℕ) :
    reqAmount (ingredientRequirements recipes items) i = totalRequired recipes items i := by
  unfold ingredientRequirements
  rw [reqAmount_outer_fold]
  simp [reqAmount]

lemma hasKey_ingredientRequirements (recipes : List Recipe) (items : List StockLine) (i : ℕ) :
    hasKey (ingredientRequirements recipes items) i = true ↔ references recipes items i := by
  unfold ingredientRequirements
  have main : ∀ (reqs : List (ℕ × ℚ)),
      hasKey (items.foldl
        (fun reqs item =>
          (recipes.filter (fun r => r.menu_item_id = item.menu_item_id)).foldl
            (fun reqs r => addRequirement reqs r.ingredient_id (r.amount * (item.quantity : ℚ)))
            reqs)
        reqs) i
      = (hasKey reqs i ||
          items.any (fun it =>
            (recipes.filter (fun r => r.menu_item_id = it.menu_item_id)).any
              (fun r => r.ingredient_id = i))) := by
    induction items with
    | nil => intro reqs; simp
    | cons it items ih =>
      intro reqs
      rw [List.foldl_cons, ih, hasKey_inner_fold, List.any_cons, Bool.or_assoc]
  rw [main []]
  have hbase : hasKey [] i = false := by simp [hasKey]
  rw [hbase, Bool.false_or]
  unfold references
  simp only [List.any_eq_true, List.mem_filter, decide_eq_true_eq]
  tauto

lemma collectShortages_step_mono (ings : List Ingredient) :
    ∀ (reqs : List (ℕ × ℚ)) (acc : List Shortage) (x : Shortage), x ∈ acc →
    x ∈ reqs.foldl
      (fun acc p =>
        match findIngredient ings p.1 with
        | none => acc
        | some ing =>
          if !ing.is_active then acc
          else if ing.current_stock < p.2 then
            acc ++ [⟨ing.name, p.2, ing.current_stock, ing.unit⟩]
          else acc)
      acc := by
  intro reqs
  induction reqs with
  | nil => intro acc x hx; simpa using hx
  | cons p t ih =>
    intro acc x hx
    rw [List.foldl_cons]
    apply ih
    cases hfind : findIngredient ings p.1 with
    | none => simpa [hfind] using hx
    | some ing =>
      by_cases hact : ing.is_active
      · by_cases hlt : ing.current_stock < p.2
        · simp [hfind, hact, hlt, List.mem_append]; left; exact hx
        · simpa [hfind, hact, hlt] using hx
      · simpa [hfind, hact] using hx

/-- Every requirement entry whose (active, existing) ingredient is short ends
up as a descriptor in the collected shortage list. -/
lemma mem_collectShortages (ings : List Ingredient) (reqs : List (ℕ × ℚ))
    (p : ℕ × ℚ) (hp : p ∈ reqs) (ing : Ingredient)
    (hfind : findIngredient ings p.1 = some ing)
    (hact : ing.is_active = true) (hstock : ing.current_stock < p.2) :
    (⟨ing.name, p.2, ing.current_stock, ing.unit⟩ : Shortage) ∈ collectShortages ings reqs := by
  unfold collectShortages
  have main : ∀ (l : List (ℕ × ℚ)) (acc : List Shortage), p ∈ l →
      (⟨ing.name, p.2, ing.current_stock, ing.unit⟩ : Shortage) ∈ l.foldl
        (fun acc q =>
          match findIngredient ings q.1 with
          | none => acc
          | some g =>
            if !g.is_active then acc
            else if g.current_stock < q.2 then
              acc ++ [⟨g.name, q.2, g.current_stock, g.unit⟩]
            else acc)
        acc := by
    intro l
    induction l with
    | nil => intro acc h; simp at h
    | cons q t ih =>
      intro acc hmem
      rw [List.foldl_cons]
      rcases List.mem_cons.mp hmem with hq | ht
      · subst hq
        apply collectShortages_step_mono
        simp [hfind, hact, hstock]
      · exact ih _ ht
  exact main reqs [] hp

lemma entry_mem_of_hasKey (reqs : List (ℕ × ℚ)) (i : ℕ) (h : hasKey reqs i = true) :
    (i, reqAmount reqs i) ∈ reqs := by
  unfold hasKey at h
  cases hfind : reqs.find? (fun p => p.1 = i) with
  | none => rw [hfind] at h; simp at h
  | some p =>
    have hkey : p.1 = i := by simpa using List.find?_some hfind
    have hmem : p ∈ reqs := List.mem_of_find?_eq_some hfind
    have hval : reqAmount reqs i = p.2 := by unfold reqAmount; rw [hfind]
    rw [hval, ← hkey]
    exact hmem

/-- C1: `check_and_deduct_stock` first sums `recipe.amount * quantity` per
ingredient across all order lines (the requirement dict holds exactly the
aggregate `totalRequired`), and checks that aggregate per ingredient: any
order whose summed requirement for an (existing, active) referenced
ingredient exceeds its stock is rejected with a shortage for that aggregate
amount — even when each line's share alone would fit. -/
theorem claim_C1_aggregate_stock_check :
    (∀ (recipes : List Recipe) (items : List StockLine) (i : ℕ),
      reqAmount (ingredientRequirements recipes items) i = totalRequired recipes items i) ∧
    (∀ (recipes : List Recipe) (st : StockState) (items : List StockLine) (uid : ℕ)
      (i : ℕ) (ing : Ingredient),
      findIngredient st.ingredients i = some ing →
      ing.is_active = true →
      references recipes items i →
      ing.current_stock < totalRequired recipes items i →
      ∃ shorts, check_and_deduct_stock recipes st items uid = .error shorts ∧
        (⟨ing.name, totalRequired recipes items i, ing.current_stock, ing.unit⟩ : Shortage)
          ∈ shorts) := by
  refine ⟨reqAmount_ingredientRequirements, ?_⟩
  intro recipes st items uid i ing hfind hact href hstock
  have hkey : hasKey (ingredientRequirements recipes items) i = true :=
    (hasKey_ingredientRequirements recipes items i).mpr href
  have hentry := entry_mem_of_hasKey _ i hkey
  rw [reqAmount_ingredientRequirements] at hentry
  have hmem := mem_collectShortages st.ingredients (ingredientRequirements recipes items)
    (i, totalRequired recipes items i) hentry ing hfind hact hstock
  refine ⟨collectShortages st.ingredients (ingredientRequirements recipes items), ?_, hmem⟩
  unfold check_and_deduct_stock
  have hne : collectShortages st.ingredients (ingredientRequirements recipes items) ≠ [] :=
    List.ne_nil_of_mem hmem
  simp [List.isEmpty_iff, hne]

/-- Flour: 10 g in stock; two distinct menu items each consume 6 g per unit. -/
def c1recipes : List Recipe := [⟨100, 1, 6⟩, ⟨200, 1, 6⟩]

/-- One Flour ingredient with 10 g of stock. -/
def c1st : StockState := ⟨[⟨1, "Flour", "g", 10, true⟩], []⟩

/-- An order with one unit of each of the two flour-consuming menu items. -/
def c1items : List StockLine := [⟨100, 1⟩, ⟨200, 1⟩]

/-- Witness for C1: each line alone needs 6 g ≤ 10 g available, but the
summed requirement is 12 g > 10 g, and the check rejects the whole order. -/
theorem claim_C1_aggregate_stock_check_witness :
    totalRequired c1recipes [⟨100, 1⟩] 1 ≤ 10 ∧
    totalRequired c1recipes [⟨200, 1⟩] 1 ≤ 10 ∧
    (10 : ℚ) < totalRequired c1recipes c1items 1 ∧
    (∃ shorts, check_and_deduct_stock c1recipes c1st c1items 7 = .error shorts ∧
      (⟨"Flour", totalRequired c1recipes c1items 1, 10, "g"⟩ : Shortage) ∈ shorts) := by
  refine ⟨by norm_num [totalRequired, c1recipes], by norm_num [totalRequired, c1recipes], ?_, ?_⟩
  · norm_num [totalRequired, c1recipes, c1items]
  · exact claim_C1_aggregate_stock_check.2 c1recipes c1st c1items 7 1 ⟨1, "Flour", "g", 10, true⟩
      rfl rfl ⟨⟨100, 1⟩, by simp [c1items], ⟨100, 1, 6⟩, by simp [c1recipes], rfl, rfl⟩
      (by norm_num [totalRequired, c1recipes, c1items])

/-! ## Order engine (`app/routes/order_routes.py`, `app/utils/helpers.py`) -/

/-- The `OrderStatus` enumeration of `app/models.py`. -/
inductive OrderStatus where
  | pending_payment
  | paid_waiting_preparation
  | preparing
  | ready_for_pickup
  | completed
  | cancelled
deriving DecidableEq

/-- The string value stored in the database for each status. -/
def OrderStatus.value : OrderStatus → String
  | .pending_payment => "pending_payment"
  | .paid_waiting_preparation => "paid_waiting_preparation"
  | .preparing => "preparing"
  | .ready_for_pickup => "ready_for_pickup"
  | .completed => "completed"
  | .cancelled => "cancelled"

/-- The coercion SQLAlchemy performs when a status string is assigned to the
`Enum(OrderStatus)` column. -/
def statusOfString (s : String) : Option OrderStatus :=
  if s = "pending_payment" then some .pending_payment
  else if s = "paid_waiting_preparation" then some .paid_waiting_preparation
  else if s = "preparing" then some .preparing
  else if s = "ready_for_pickup" then some .ready_for_pickup
  else if s = "completed" then some .completed
  else if s = "cancelled" then some .cancelled
  else none

/-- The `UserRole` enumeration of `app/models.py`. -/
inductive Role where
  | courier
  | cashier
  | barista
  | manager
deriving DecidableEq

/-- The string value of each role. -/
def Role.value : Role → String
  | .courier => "courier"
  | .cashier => "cashier"
  | .barista => "barista"
  | .manager => "manager"

/-! ### Customer-number generation (`generate_customer_number`, helpers.py 72-98).
Customer numbers are modelled as `List Char`; the SQL
`ORDER BY customer_number DESC ... first()` is the maximum under bytewise
lexicographic string comparison. -/

/-- Bytewise lexicographic strict order on character lists (the text
collation used to sort `customer_number`). -/
def lexLt : List Char → List Char → Bool
  | [], [] => false
  | [], _ :: _ => true
  | _ :: _, [] => false
  | a :: as, b :: bs =>
    if a.toNat < b.toNat then true
    else if b.toNat < a.toNat then false
    else lexLt as bs

/-- The maximum of a list of strings under `lexLt` (none when empty):
`ORDER BY ... DESC` + `first()`. -/
def maxString (l : List (List Char)) : Option (List Char) :=
  l.foldl
    (fun acc s =>
      match acc with
      | none => some s
      | some m => if lexLt m s then some s else some m)
    none

/-- Python `str.split('-')`. -/
def splitDash : List Char → List (List Char)
  | [] => [[]]
  | c :: rest =>
    match splitDash rest with
    | [] => [[c]]
    | h :: t => if c = '-' then [] :: h :: t else (c :: h) :: t

/-- Python `int(...)` on the counter substring: succeeds exactly on nonempty
all-digit input (the `except (IndexError, ValueError)` fallback handles the
rest). -/
def digitsToNat? (cs : List Char) : Option ℕ :=
  if cs ≠ [] ∧ cs.all (fun c => c.isDigit) then
    some (cs.foldl (fun a c => a * 10 + (c.toNat - 48)) 0)
  else none

/-- Python `f"{n:03d}"`: the decimal digits of `n`, left-padded with zeros
to width three. -/
def pad3 (n : ℕ) : List Char :=
  if n ≤ 999 then
    [Nat.digitChar (n / 100), Nat.digitChar (n / 10 % 10), Nat.digitChar (n % 10)]
  else Nat.toDigits 10 n

/-- Embedding of `generate_customer_number` (helpers.py lines 72-98) given
today's `YYYYMMDD` string and the stored customer numbers: filter to today's
(`LIKE 'YYYYMMDD-%'`), take the string-wise maximum, parse its counter after
the first dash, add one (default 1), and format as `YYYYMMDD-` + `%03d`. -/
def generate_customer_number (today : List Char)
    (customer_numbers : List (List Char)) : List Char :=
  let pattern := today ++ ['-']
  let todays := customer_numbers.filter (fun cn => pattern.isPrefixOf cn)
  let next_counter :=
    match maxString todays with
    | none => 1
    | some highest =>
      match splitDash highest with
      | _ :: counter_part :: _ =>
        match digitsToNat? counter_part with
        | some n => n + 1
        | none => 1
      | _ => 1
  today ++ ['-'] ++ pad3 next_counter

/-! ### Order creation -/

/-- A `MenuItem` row (the fields order creation reads). -/
structure MenuItem where
  id : ℕ
  name : String
  base_price_usd : ℚ
  is_active : Bool
deriving DecidableEq

/-- A `MenuItemOptionChoice` row; `menu_item_id` is the owning option's
`option_type.menu_item_id`, flattened through the ORM relationship. -/
structure OptionChoice where
  id : ℕ
  menu_item_id : ℕ
  choice_name : String
  price_usd : ℚ
deriving DecidableEq

/-- An `Order` row (the fields the claims read). The random
timestamp-based `order_number` is not modelled: no claim depends on it. -/
structure OrderRow where
  id : ℕ
  customer_number : List Char
  status : OrderStatus
  courier_id : ℕ
  cashier_id : Option ℕ
  barista_id : Option ℕ
  payment_method : Option String
  subtotal_usd : ℚ
  subtotal_lbp_rounded : ℤ
  discount_total_usd : ℚ
  discount_total_lbp_rounded : ℤ
  final_total_usd : ℚ
  final_total_lbp_rounded : ℤ
  exchange_rate_at_order_time : ℚ
  notes : Option String
deriving DecidableEq

/-- An `OrderItem` row.  `id` is the primary key used by the item-discount
route; `create_order` itself never reads it back, so rows it creates carry
`id = 0` (primary-key assignment is not modelled). -/
structure OrderItemRow where
  id : ℕ
  order_id : ℕ
  menu_item_id : ℕ
  menu_item_name : String
  quantity : ℤ
  chosen_option_choice_id : Option ℕ
  chosen_option_choice_name : Option String
  unit_price_usd_at_order : ℚ
  unit_price_lbp_rounded_at_order : ℤ
  line_total_usd_at_order : ℚ
  line_total_lbp_rounded_at_order : ℤ
  discount_amount_usd : ℚ
  discount_amount_lbp : ℤ
deriving DecidableEq

/-- The `DiscountType` enumeration. -/
inductive DiscountType where
  | percentage
  | fixed_amount
deriving DecidableEq

/-- The `AppliesTo` enumeration. -/
inductive AppliesTo where
  | order
  | item
deriving DecidableEq

/-- A `Discount` row. -/
structure DiscountRow where
  id : ℕ
  name : String
  discount_type : DiscountType
  discount_value : ℚ
  applies_to : AppliesTo
  is_active : Bool
deriving DecidableEq

/-- An `OrderDiscount` association row. -/
structure OrderDiscountRow where
  order_id : ℕ
  discount_id : ℕ
  discount_name : String
  discount_amount_usd : ℚ
  discount_amount_lbp : ℤ
  applied_by_user_id : ℕ
deriving DecidableEq

/-- An `OrderItemDiscount` association row. -/
structure OrderItemDiscountRow where
  order_item_id : ℕ
  discount_id : ℕ
  discount_name : String
  discount_amount_usd : ℚ
  discount_amount_lbp : ℤ
  applied_by_user_id : ℕ
deriving DecidableEq

/-- The database state the routes read and write. -/
structure DB where
  menu_items : List MenuItem
  option_choices : List OptionChoice
  recipes : List Recipe
  stock : StockState
  orders : List OrderRow
  order_items : List OrderItemRow
  discounts : List DiscountRow
  order_discounts : List OrderDiscountRow
  order_item_discounts : List OrderItemDiscountRow
  next_order_id : ℕ
deriving DecidableEq

/-- One entry of the request's `items` list.  `menu_item_id` is `none` when
the key is missing (Python's `.get`); `quantity` defaults to 1 when missing. -/
structure OrderItemReq where
  menu_item_id : Option ℤ
  quantity : Option ℤ
  chosen_option_choice_id : Option ℕ
deriving DecidableEq

/-- The failure modes of `create_order`. -/
inductive OrderError where
  | itemsRequired
  | invalidItem
  | menuItemNotFound (id : ℤ)
  | invalidOptionChoice (id : ℕ)
  | lbpCalculationFailed
  | insufficientStock (shortages : List Shortage)
deriving DecidableEq

/-- The per-line loop of `create_order` (order_routes.py lines 116-171):
validate ids and quantity, resolve the menu item and optional option choice,
price the line (LBP unit price rounded first, line total = rounded unit
price × quantity), and accumulate rows, stock lines and the USD subtotal. -/
def processItems (db : DB) (rate : ℚ) (factor : ℤ) :
    List OrderItemReq → List OrderItemRow → List StockLine → ℚ →
    Except OrderError (List OrderItemRow × List StockLine × ℚ)
  | [], rows, stockLines, total => .ok (rows, stockLines, total)
  | it :: rest, rows, stockLines, total =>
    match it.menu_item_id with
    | none => .error .invalidItem
    | some mid =>
      let q := it.quantity.getD 1
      if q ≤ 0 then .error .invalidItem
      else
        match db.menu_items.find? (fun m => (m.id : ℤ) = mid && m.is_active) with
        | none => .error (.menuItemNotFound mid)
        | some menu_item =>
          let priced : Except OrderError (ℚ × Option String) :=
            match it.chosen_option_choice_id with
            | none => .ok (menu_item.base_price_usd, none)
            | some cid =>
              match db.option_choices.find? (fun c => c.id = cid) with
              | none => .error (.invalidOptionChoice cid)
              | some c =>
                if c.menu_item_id = menu_item.id then .ok (c.price_usd, some c.choice_name)
                else .error (.invalidOptionChoice cid)
          match priced with
          | .error e => .error e
          | .ok (unit_price_usd, opt_name) =>
            match calculate_lbp_price (some unit_price_usd) rate factor with
            | none => .error .lbpCalculationFailed
            | some unit_lbp =>
              processItems db rate factor rest
                (rows ++ [⟨0, 0, menu_item.id, menu_item.name, q, it.chosen_option_choice_id,
                  opt_name, unit_price_usd, unit_lbp, unit_price_usd * (q : ℚ),
                  unit_lbp * q, 0, 0⟩])
                (stockLines ++ [⟨menu_item.id, q⟩])
                (total + unit_price_usd * (q : ℚ))

/-- The outcome of `create_order`; both branches carry the resulting
database state (the error branch returns before any commit, so it carries
the unchanged input state). -/
inductive CreateResult where
  | ok (db : DB) (order : OrderRow)
  | err (db : DB) (e : OrderError)
deriving DecidableEq

/-- The state after a `create_order` call. -/
def dbAfterCreate : CreateResult → DB
  | .ok db _ => db
  | .err db _ => db

/-- Embedding of `create_order` (order_routes.py lines 87-226): validate and
price every line, run the stock gate, convert the aggregate USD subtotal
once for the order's LBP subtotal, generate the customer number, and persist
the order and its items with initial status `paid_waiting_preparation` and
zero discount fields.  `rate`, `factor` and `today` stand for
`get_current_exchange_rate()`, the configured LBP rounding factor, and
`date.today()`.  On a non-`none` amount `calculate_lbp_price` always
returns a value, so the `getD 0` default is never exercised. -/
def create_order (db : DB) (rate : ℚ) (factor : ℤ) (user_id : ℕ) (today : List Char)
    (items : List OrderItemReq) (notes : Option String) : CreateResult :=
  if items.isEmpty then .err db .itemsRequired
  else
    match processItems db rate factor items [] [] 0 with
    | .error e => .err db e
    | .ok (rows, stockLines, order_total_usd) =>
      match check_and_deduct_stock db.recipes db.stock stockLines user_id with
      | .error shorts => .err db (.insufficientStock shorts)
      | .ok stock' =>
        let final_total_lbp := (calculate_lbp_price (some order_total_usd) rate factor).getD 0
        let cn := generate_customer_number today (db.orders.map (fun o => o.customer_number))
        let new_order : OrderRow :=
          { id := db.next_order_id
            customer_number := cn
            status := .paid_waiting_preparation
            courier_id := user_id
            cashier_id := none
            barista_id := none
            payment_method := none
            subtotal_usd := order_total_usd
            subtotal_lbp_rounded := final_total_lbp
            discount_total_usd := 0
            discount_total_lbp_rounded := 0
            final_total_usd := order_total_usd
            final_total_lbp_rounded := final_total_lbp
            exchange_rate_at_order_time := rate
            notes := notes }
        .ok { db with
              stock := stock'
              orders := db.orders ++ [new_order]
              order_items := db.order_items ++ rows.map (fun r => { r with order_id := new_order.id })
              next_order_id := db.next_order_id + 1 } new_order

/-- C2: when some (existing, active) ingredient referenced by the order has
less stock than the aggregate requirement, order creation fails with the
complete shortage list — every short ingredient's descriptor (name, needed,
available, unit) is in the reported list — and the database is returned
unchanged: no stock deduction, no ledger record, no Order or OrderItem row. -/
theorem claim_C2_shortage_atomic_failure
    (db : DB) (rate : ℚ) (factor : ℤ) (uid : ℕ) (today : List Char)
    (items : List OrderItemReq) (notes : Option String)
    (rows : List OrderItemRow) (stockLines : List StockLine) (total : ℚ)
    (hne : items ≠ [])
    (hproc : processItems db rate factor items [] [] 0 = .ok (rows, stockLines, total))
    (hshort : ∃ i ing, findIngredient db.stock.ingredients i = some ing ∧
      ing.is_active = true ∧ references db.recipes stockLines i ∧
      ing.current_stock < totalRequired db.recipes stockLines i) :
    create_order db rate factor uid today items notes
      = .err db (.insufficientStock
          (collectShortages db.stock.ingredients (ingredientRequirements db.recipes stockLines)))
    ∧ dbAfterCreate (create_order db rate factor uid today items notes) = db
    ∧ (∀ (j : ℕ) (g : Ingredient), findIngredient db.stock.ingredients j = some g →
        g.is_active = true → references db.recipes stockLines j →
        g.current_stock < totalRequired db.recipes stockLines j →
        (⟨g.name, totalRequired db.recipes stockLines j, g.current_stock, g.unit⟩ : Shortage)
          ∈ collectShortages db.stock.ingredients (ingredientRequirements db.recipes stockLines)) := by
  have hdesc : ∀ (j : ℕ) (g : Ingredient), findIngredient db.stock.ingredients j = some g →
      g.is_active = true → references db.recipes stockLines j →
      g.current_stock < totalRequired db.recipes stockLines j →
      (⟨g.name, totalRequired db.recipes stockLines j, g.current_stock, g.unit⟩ : Shortage)
        ∈ collectShortages db.stock.ingredients (ingredientRequirements db.recipes stockLines) := by
    intro j g hfind hact href hstock
    have hkey := (hasKey_ingredientRequirements db.recipes stockLines j).mpr href
    have hentry := entry_mem_of_hasKey _ j hkey
    rw [reqAmount_ingredientRequirements] at hentry
    exact mem_collectShortages db.stock.ingredients _ _ hentry g hfind hact hstock
  obtain ⟨i, ing, hfind, hact, href, hstock⟩ := hshort
  have hmem := hdesc i ing hfind hact href hstock
  have hnonempty :
      collectShortages db.stock.ingredients (ingredientRequirements db.recipes stockLines) ≠ [] :=
    List.ne_nil_of_mem hmem
  have hcheck : check_and_deduct_stock db.recipes db.stock stockLines uid
      = .error (collectShortages db.stock.ingredients
          (ingredientRequirements db.recipes stockLines)) := by
    unfold check_and_deduct_stock
    simp [List.isEmpty_iff, hnonempty]
  have hco : create_order db rate factor uid today items notes
      = .err db (.insufficientStock
          (collectShortages db.stock.ingredients
            (ingredientRequirements db.recipes stockLines))) := by
    unfold create_order
    rw [if_neg (by simpa [List.isEmpty_iff] using hne)]
    simp only [hproc, hcheck]
  exact ⟨hco, by rw [hco]; rfl, hdesc⟩

/-- The end-to-end shortage scenario: Milk has 400 ml; one Latte (menu item
10, $3.00) needs 200 ml; the request asks for 3 Lattes. -/
def c2db : DB :=
  { menu_items := [⟨10, "Latte", 3, true⟩]
    option_choices := []
    recipes := [⟨10, 1, 200⟩]
    stock := ⟨[⟨1, "Milk", "ml", 400, true⟩], []⟩
    orders := []
    order_items := []
    discounts := []
    order_discounts := []
    order_item_discounts := []
    next_order_id := 1 }

/-- The request: 3 Lattes, no option choice. -/
def c2items : List OrderItemReq := [⟨some 10, some 3, none⟩]

/-- The row `processItems` builds for the 3-Latte line at rate 90000,
factor 5000. -/
def c2rows : List OrderItemRow :=
  [⟨0, 0, 10, "Latte", 3, none, none, 3, 270000, 9, 810000, 0, 0⟩]

/-- Witness for C2: ordering 3 Lattes against 400 ml of Milk (600 ml needed)
is rejected with the Milk shortage reported and the database unchanged. -/
theorem claim_C2_shortage_atomic_failure_witness :
    c2items ≠ [] ∧
    processItems c2db 90000 5000 c2items [] [] 0 = .ok (c2rows, [⟨10, 3⟩], 9) ∧
    totalRequired c2db.recipes [⟨10, 3⟩] 1 = 600 ∧
    create_order c2db 90000 5000 7 "20241201".data c2items none
      = .err c2db (.insufficientStock
          (collectShortages c2db.stock.ingredients
            (ingredientRequirements c2db.recipes [⟨10, 3⟩]))) ∧
    dbAfterCreate (create_order c2db 90000 5000 7 "20241201".data c2items none) = c2db := by
  have hproc : processItems c2db 90000 5000 c2items [] [] 0 = .ok (c2rows, [⟨10, 3⟩], 9) := by
    norm_num [processItems, c2db, c2items, c2rows, calculate_lbp_price, roundHalfAwayZero]
  have h := claim_C2_shortage_atomic_failure c2db 90000 5000 7 "20241201".data c2items none
    c2rows [⟨10, 3⟩] 9 (by simp [c2items]) hproc
    ⟨1, ⟨1, "Milk", "ml", 400, true⟩, rfl, rfl,
      ⟨⟨10, 3⟩, by simp, ⟨10, 1, 200⟩, by simp [c2db], rfl, rfl⟩,
      by norm_num [totalRequired, c2db]⟩
  exact ⟨by simp [c2items], hproc, by norm_num [totalRequired, c2db], h.1, h.2.1⟩

/-- Inversion of the per-line loop: on success, the produced rows extend the
accumulator; each new row's USD line total is its unit price times quantity,
its LBP line total is its *already-rounded* LBP unit price times quantity,
and the LBP unit price is the converter's output; the accumulated USD total
is the sum of the new rows' USD line totals. -/
lemma processItems_rows (db : DB) (rate : ℚ) (factor : ℤ) :
    ∀ (its : List OrderItemReq) (rows0 : List OrderItemRow) (sl0 : List StockLine) (t0 : ℚ)
      (rows : List OrderItemRow) (sl : List StockLine) (total : ℚ),
    processItems db rate factor its rows0 sl0 t0 = .ok (rows, sl, total) →
    ∃ rowsN, rows = rows0 ++ rowsN ∧
      total = t0 + (rowsN.map (fun r => r.line_total_usd_at_order)).sum ∧
      ∀ r ∈ rowsN,
        r.line_total_usd_at_order = r.unit_price_usd_at_order * (r.quantity : ℚ) ∧
        r.line_total_lbp_rounded_at_order = r.unit_price_lbp_rounded_at_order * r.quantity ∧
        calculate_lbp_price (some r.unit_price_usd_at_order) rate factor
          = some r.unit_price_lbp_rounded_at_order := by
  intro its
  induction its with
  | nil =>
    intro rows0 sl0 t0 rows sl total h
    simp only [processItems, Except.ok.injEq, Prod.mk.injEq] at h
    obtain ⟨hr, _, ht⟩ := h
    subst hr
    subst ht
    exact ⟨[], by simp, by simp, by simp⟩
  | cons it rest ih =>
    intro rows0 sl0 t0 rows sl total h
    simp only [processItems] at h
    split at h
    · exact absurd h (by simp)
    · split at h
      · exact absurd h (by simp)
      · split at h
        · exact absurd h (by simp)
        · split at h
          · exact absurd h (by simp)
          · split at h
            · exact absurd h (by simp)
            · rename_i scrA midv hmid hqle scrM menu_item hfindm scrP unit_price opt_name
                hpriced scrL unit_lbp hlbp
              obtain ⟨rowsN', hrows, htotal, hprops⟩ := ih _ _ _ _ _ _ h
              refine ⟨⟨0, 0, menu_item.id, menu_item.name, it.quantity.getD 1,
                it.chosen_option_choice_id, opt_name, unit_price, unit_lbp,
                unit_price * ((it.quantity.getD 1 : ℤ) : ℚ),
                unit_lbp * it.quantity.getD 1, 0, 0⟩ :: rowsN', ?_, ?_, ?_⟩
              · rw [hrows, List.append_assoc]
                rfl
              · rw [htotal]
                simp only [List.map_cons, List.sum_cons]
                ring
              · intro r hr
                rcases List.mem_cons.mp hr with hr0 | hrN
                · subst hr0
                  exact ⟨rfl, rfl, hlbp⟩
                · exact hprops r hrN

/-- On a present amount the converter always produces a value. -/
lemma calculate_lbp_price_isSome (p rate : ℚ) (f : ℤ) :
    ∃ n, calculate_lbp_price (some p) rate f = some n := by
  unfold calculate_lbp_price
  by_cases hf : f = 0
  · exact ⟨roundHalfAwayZero (p * rate), by simp [hf]⟩
  · exact ⟨roundHalfAwayZero (p * rate / (f : ℚ)) * f, by simp [hf]⟩

/-- Inversion of a successful `create_order`: the new rows, the new order,
and how the totals were computed. -/
lemma create_order_ok_inv
    (db : DB) (rate : ℚ) (factor : ℤ) (uid : ℕ) (today : List Char)
    (items : List OrderItemReq) (notes : Option String) (db' : DB) (order : OrderRow)
    (h : create_order db rate factor uid today items notes = .ok db' order) :
    ∃ rows stockLines,
      processItems db rate factor items [] [] 0 = .ok (rows, stockLines, order.subtotal_usd) ∧
      db'.order_items = db.order_items ++ rows.map (fun r => { r with order_id := order.id }) ∧
      db'.orders = db.orders ++ [order] ∧
      order.status = .paid_waiting_preparation ∧
      order.discount_total_usd = 0 ∧
      order.discount_total_lbp_rounded = 0 ∧
      order.final_total_usd = order.subtotal_usd ∧
      order.final_total_lbp_rounded = order.subtotal_lbp_rounded ∧
      order.subtotal_lbp_rounded
        = (calculate_lbp_price (some order.subtotal_usd) rate factor).getD 0 ∧
      order.customer_number
        = generate_customer_number today (db.orders.map (fun o => o.customer_number)) := by
  unfold create_order at h
  split at h
  · exact absurd h (by simp)
  · split at h
    · exact absurd h (by simp)
    · split at h
      · exact absurd h (by simp)
      · rename_i scrP rows stockLines total hproc scrC stock' hcheck
        simp only [Except.ok.injEq, CreateResult.ok.injEq] at h
        obtain ⟨hdb', horder⟩ := h
        subst hdb'
        subst horder
        exact ⟨rows, stockLines, hproc, rfl, rfl, rfl, rfl, rfl, rfl, rfl, rfl, rfl⟩

/-- A catalog with one $0.03 item and no recipes (always available). -/
def c4db : DB :=
  { menu_items := [⟨10, "Ristretto", 3 / 100, true⟩]
    option_choices := []
    recipes := []
    stock := ⟨[], []⟩
    orders := []
    order_items := []
    discounts := []
    order_discounts := []
    order_item_discounts := []
    next_order_id := 1 }

/-- Two separate one-unit lines of the $0.03 item. -/
def c4items : List OrderItemReq := [⟨some 10, some 1, none⟩, ⟨some 10, some 1, none⟩]

/-- The persisted row for one such line at rate 90000, factor 5000: the
rounded LBP unit price is 5000 and the LBP line total is 5000 × 1. -/
def c4row : OrderItemRow := ⟨0, 1, 10, "Ristretto", 1, none, none, 3 / 100, 5000, 3 / 100, 5000, 0, 0⟩

/-- The persisted order: aggregate subtotal $0.06 converts to 5400 LBP which
rounds to 5000 — not the 10000 sum of the rounded line totals. -/
def c4order : OrderRow :=
  { id := 1
    customer_number := generate_customer_number ("20241201".data) []
    status := .paid_waiting_preparation
    courier_id := 7
    cashier_id := none
    barista_id := none
    payment_method := none
    subtotal_usd := 3 / 50
    subtotal_lbp_rounded := 5000
    discount_total_usd := 0
    discount_total_lbp_rounded := 0
    final_total_usd := 3 / 50
    final_total_lbp_rounded := 5000
    exchange_rate_at_order_time := 90000
    notes := none }

/-- The database state after the C4 order is created. -/
def c4db' : DB :=
  { c4db with
    orders := [c4order]
    order_items := [c4row, c4row]
    next_order_id := 2 }

lemma c4_create_eval :
    create_order c4db 90000 5000 7 ("20241201".data) c4items none = .ok c4db' c4order := by
  norm_num [create_order, processItems, c4db, c4items, c4db', c4order, c4row,
    check_and_deduct_stock, ingredientRequirements, collectShortages,
    calculate_lbp_price, roundHalfAwayZero]

lemma c4_items_eval : c4db'.order_items = c4db.order_items ++ [c4row, c4row] := by
  norm_num [c4db', c4db]

/-- C4: in order creation each line's LBP total is the already-rounded LBP
unit price times the quantity (per-unit rounding, then multiplication),
while the order's LBP subtotal is the converter run once on the aggregate
USD subtotal of all lines — and the two policies can disagree on the same
order. -/
theorem claim_C4_line_vs_subtotal_rounding :
    (∀ (db : DB) (rate : ℚ) (factor : ℤ) (uid : ℕ) (today : List Char)
       (items : List OrderItemReq) (notes : Option String) (db' : DB) (order : OrderRow),
      create_order db rate factor uid today items notes = .ok db' order →
      ∃ rowsN, db'.order_items = db.order_items ++ rowsN ∧
        (∀ r ∈ rowsN,
          r.line_total_lbp_rounded_at_order = r.unit_price_lbp_rounded_at_order * r.quantity ∧
          calculate_lbp_price (some r.unit_price_usd_at_order) rate factor
            = some r.unit_price_lbp_rounded_at_order ∧
          r.line_total_usd_at_order = r.unit_price_usd_at_order * (r.quantity : ℚ)) ∧
        order.subtotal_usd = (rowsN.map (fun r => r.line_total_usd_at_order)).sum ∧
        calculate_lbp_price (some order.subtotal_usd) rate factor
          = some order.subtotal_lbp_rounded) ∧
    (∃ (db : DB) (rate : ℚ) (factor : ℤ) (uid : ℕ) (today : List Char)
       (items : List OrderItemReq) (db' : DB) (order : OrderRow) (rowsN : List OrderItemRow),
      create_order db rate factor uid today items none = .ok db' order ∧
      db'.order_items = db.order_items ++ rowsN ∧
      (rowsN.map (fun r => r.line_total_lbp_rounded_at_order)).sum
        ≠ order.subtotal_lbp_rounded) := by
  constructor
  · intro db rate factor uid today items notes db' order h
    obtain ⟨rows, stockLines, hproc, hitems, -, -, -, -, -, -, hlbp, -⟩ :=
      create_order_ok_inv db rate factor uid today items notes db' order h
    obtain ⟨rowsP, hrows, htotal, hprops⟩ :=
      processItems_rows db rate factor items [] [] 0 rows stockLines order.subtotal_usd hproc
    rw [List.nil_append] at hrows
    rw [← hrows] at htotal hprops
    refine ⟨rows.map (fun r => { r with order_id := order.id }), hitems, ?_, ?_, ?_⟩
    · intro r hr
      obtain ⟨r0, hr0, hr0eq⟩ := List.mem_map.mp hr
      obtain ⟨p1, p2, p3⟩ := hprops r0 hr0
      subst hr0eq
      exact ⟨p2, p3, p1⟩
    · rw [htotal]
      simp only [List.map_map]
      rw [zero_add]
      rfl
    · obtain ⟨n, hn⟩ := calculate_lbp_price_isSome order.subtotal_usd rate factor
      rw [hn]
      rw [hlbp, hn]
      rfl
  · exact ⟨c4db, 90000, 5000, 7, "20241201".data, c4items, c4db', c4order, [c4row, c4row],
      c4_create_eval, c4_items_eval, by norm_num [c4row, c4order]⟩

/-- Witness for C4: the general clause applied to the concrete two-line
$0.03 order, whose `create_order` success hypothesis is discharged by
evaluation. -/
theorem claim_C4_line_vs_subtotal_rounding_witness :
    ∃ rowsN, c4db'.order_items = c4db.order_items ++ rowsN ∧
      (∀ r ∈ rowsN,
        r.line_total_lbp_rounded_at_order = r.unit_price_lbp_rounded_at_order * r.quantity ∧
        calculate_lbp_price (some r.unit_price_usd_at_order) 90000 5000
          = some r.unit_price_lbp_rounded_at_order ∧
        r.line_total_usd_at_order = r.unit_price_usd_at_order * (r.quantity : ℚ)) ∧
      c4order.subtotal_usd = (rowsN.map (fun r => r.line_total_usd_at_order)).sum ∧
      calculate_lbp_price (some c4order.subtotal_usd) 90000 5000
        = some c4order.subtotal_lbp_rounded :=
  claim_C4_line_vs_subtotal_rounding.1 c4db 90000 5000 7 ("20241201".data) c4items none
    c4db' c4order c4_create_eval

/-! ## Stock routes (`app/routes/stock_routes.py`) -/

/-- The outcome of a stock route; both constructors carry the resulting
state (errors return before commit, so they carry the input unchanged). -/
inductive StockResult where
  | ok (st : StockState)
  | err (st : StockState)
deriving DecidableEq

/-- Embedding of `adjust_stock` (stock_routes.py lines 9-62): look up the
ingredient, reject an empty (stripped) reason or a negative resulting stock,
otherwise write the new stock and append the ledger record in the same
transaction.  `reason` stands for the already-stripped request field. -/
def adjust_stock (st : StockState) (user_id ingredient_id : ℕ)
    (change_amount : ℚ) (reason : String) : StockResult :=
  match findIngredient st.ingredients ingredient_id with
  | none => .err st
  | some ing =>
    if reason = "" then .err st
    else if ing.current_stock + change_amount < 0 then .err st
    else
      .ok { ingredients := st.ingredients.map
              (fun g => if g.id = ingredient_id then
                { g with current_stock := ing.current_stock + change_amount } else g),
            adjustments := st.adjustments ++
              [⟨ingredient_id, change_amount, reason, user_id⟩] }

/-- One line of a stock invoice request. -/
structure InvoiceItem where
  ingredient_id : ℕ
  quantity : ℚ
  unit_price : ℚ
deriving DecidableEq

/-- The per-item validation of `create_stock_invoice`: the ingredient must
exist and be active, the quantity positive, the unit price non-negative. -/
def invoiceItemValid (st : StockState) (it : InvoiceItem) : Bool :=
  match findIngredient st.ingredients it.ingredient_id with
  | none => false
  | some ing => ing.is_active && decide (0 < it.quantity) && decide (0 ≤ it.unit_price)

/-- Embedding of `create_stock_invoice` (stock_routes.py lines 118-192).
The Python loop validates each item and increments
`ingredient.current_stock` as it goes; a failing item returns before
`db.session.commit()`, so the uncommitted increments are discarded — the net
effect is all-or-nothing.  Note that the loop appends **no**
`StockAdjustment` record: `adjustments` is left untouched on success. -/
def create_stock_invoice (st : StockState) (items : List InvoiceItem) : StockResult :=
  if items.isEmpty then .err st
  else if items.all (invoiceItemValid st) then
    .ok ⟨items.foldl
          (fun ings it => ings.map
            (fun g => if g.id = it.ingredient_id then
              { g with current_stock := g.current_stock + it.quantity } else g))
          st.ingredients,
        st.adjustments⟩
  else .err st

/-- The stock level the ledger invariant tracks (0 for a missing id). -/
def stockOf (st : StockState) (i : ℕ) : ℚ :=
  match findIngredient st.ingredients i with
  | some ing => ing.current_stock
  | none => 0

/-- The sum of ledger deltas recorded for one ingredient. -/
def deltaSum (adjs : List StockAdjustment) (i : ℕ) : ℚ :=
  ((adjs.filter (fun a => a.ingredient_id = i)).map (fun a => a.change_amount)).sum

lemma deltaSum_append (a b : List StockAdjustment) (i : ℕ) :
    deltaSum (a ++ b) i = deltaSum a i + deltaSum b i := by
  simp [deltaSum, List.filter_append]

lemma deltaSum_single (a : StockAdjustment) (i : ℕ) :
    deltaSum [a] i = if a.ingredient_id = i then a.change_amount else 0 := by
  by_cases h : a.ingredient_id = i <;> simp [deltaSum, List.filter_cons, h]

lemma findIngredient_map_update (ings : List Ingredient) (j : ℕ)
    (f : Ingredient → Ingredient) (hid : ∀ g, g.id = j → (f g).id = g.id) (i : ℕ) :
    findIngredient (ings.map (fun g => if g.id = j then f g else g)) i
      = (findIngredient ings i).map (fun g => if g.id = j then f g else g) := by
  induction ings with
  | nil => simp [findIngredient]
  | cons g t ih =>
    unfold findIngredient at ih ⊢
    rw [List.map_cons]
    by_cases hi : g.id = i
    · have hhead : ((if g.id = j then f g else g).id = i) := by
        by_cases hj : g.id = j
        · rw [if_pos hj, hid g hj, hi]
        · rw [if_neg hj, hi]
      rw [List.find?_cons_of_pos _ (by simpa using hhead),
        List.find?_cons_of_pos _ (by simpa using hi)]
      simp
    · have hhead : ¬ ((if g.id = j then f g else g).id = i) := by
        by_cases hj : g.id = j
        · rw [if_pos hj, hid g hj]; exact hi
        · rw [if_neg hj]; exact hi
      rw [List.find?_cons_of_neg _ (by simpa using hhead),
        List.find?_cons_of_neg _ (by simpa using hi)]
      exact ih

/-- One deduction step changes the stock of each ingredient by exactly the
deltas of the adjustment records it appends. -/
lemma deductOne_balance (uid : ℕ) (st : StockState) (p : ℕ × ℚ) (i : ℕ) :
    ∃ tail, (deductOne uid st p).adjustments = st.adjustments ++ tail ∧
      stockOf (deductOne uid st p) i = stockOf st i + deltaSum tail i := by
  cases hfind : findIngredient st.ingredients p.1 with
  | none =>
    have hdef : deductOne uid st p = st := by
      unfold deductOne
      rw [hfind]
    exact ⟨[], by rw [hdef]; simp, by rw [hdef]; simp [deltaSum]⟩
  | some ing =>
    by_cases hact : ing.is_active = true
    · have hdef : deductOne uid st p =
        ⟨st.ingredients.map
            (fun g => if g.id = p.1 then { g with current_stock := g.current_stock - p.2 } else g),
          st.adjustments ++ [⟨p.1, -p.2, "Order placement - automatic deduction", uid⟩]⟩ := by
        simp [deductOne, hfind, hact]
      rw [hdef]
      refine ⟨[⟨p.1, -p.2, "Order placement - automatic deduction", uid⟩], rfl, ?_⟩
      unfold stockOf
      simp only [deltaSum_single]
      rw [findIngredient_map_update st.ingredients p.1
        (fun g => { g with current_stock := g.current_stock - p.2 }) (fun g _ => rfl) i]
      cases hfi : findIngredient st.ingredients i with
      | none =>
        have hne : ¬ p.1 = i := by
          intro hE
          rw [hE, hfi] at hfind
          cases hfind
        simp [hne]
      | some g =>
        have hgi : g.id = i := by simpa using List.find?_some hfi
        by_cases hpi : p.1 = i
        · have hgp : g.id = p.1 := by rw [hgi, hpi]
          simp [hgp, hpi, sub_eq_add_neg]
        · have hgp : ¬ g.id = p.1 := by rw [hgi]; exact fun hE => hpi hE.symm
          simp [hgp, hpi]
    · have hact' : ing.is_active = false := by simpa using hact
      have hdef : deductOne uid st p = st := by
        simp [deductOne, hfind, hact']
      exact ⟨[], by rw [hdef]; simp, by rw [hdef]; simp [deltaSum]⟩

lemma deduct_fold_balance (uid : ℕ) :
    ∀ (reqs : List (ℕ × ℚ)) (st : StockState) (i : ℕ),
    ∃ tail, (reqs.foldl (deductOne uid) st).adjustments = st.adjustments ++ tail ∧
      stockOf (reqs.foldl (deductOne uid) st) i = stockOf st i + deltaSum tail i := by
  intro reqs
  induction reqs with
  | nil => intro st i; exact ⟨[], by simp, by simp [deltaSum]⟩
  | cons p t ih =>
    intro st i
    rw [List.foldl_cons]
    obtain ⟨tail1, ha1, hs1⟩ := deductOne_balance uid st p i
    obtain ⟨tail2, ha2, hs2⟩ := ih (deductOne uid st p) i
    refine ⟨tail1 ++ tail2, ?_, ?_⟩
    · rw [ha2, ha1, List.append_assoc]
    · rw [hs2, hs1, deltaSum_append]
      ring

/-- A manual adjustment either fails (leaving the state unchanged) or
writes the new stock and appends exactly the matching ledger record. -/
lemma adjust_stock_balance (st : StockState) (uid iid : ℕ) (delta : ℚ) (reason : String) (i : ℕ) :
    adjust_stock st uid iid delta reason = .err st ∨
    ∃ st', adjust_stock st uid iid delta reason = .ok st' ∧
      st'.adjustments = st.adjustments ++ [⟨iid, delta, reason, uid⟩] ∧
      stockOf st' i = stockOf st i + deltaSum [⟨iid, delta, reason, uid⟩] i := by
  cases hfind : findIngredient st.ingredients iid with
  | none =>
    left
    unfold adjust_stock
    rw [hfind]
  | some ing =>
    by_cases hreason : reason = ""
    · left
      simp [adjust_stock, hfind, hreason]
    · by_cases hneg : ing.current_stock + delta < 0
      · left
        simp [adjust_stock, hfind, hreason, hneg]
      · right
        refine ⟨⟨st.ingredients.map
            (fun g => if g.id = iid then
              { g with current_stock := ing.current_stock + delta } else g),
            st.adjustments ++ [⟨iid, delta, reason, uid⟩]⟩, ?_, rfl, ?_⟩
        · simp [adjust_stock, hfind, hreason, hneg]
        · unfold stockOf
          simp only [deltaSum_single]
          rw [findIngredient_map_update st.ingredients iid
            (fun g => { g with current_stock := ing.current_stock + delta }) (fun g _ => rfl) i]
          cases hfi : findIngredient st.ingredients i with
          | none =>
            have hne : ¬ iid = i := by
              intro hE
              rw [hE, hfi] at hfind
              cases hfind
            simp [hne]
          | some g =>
            have hgi : g.id = i := by simpa using List.find?_some hfi
            by_cases hii : iid = i
            · rw [hii] at hfind
              rw [hfind] at hfi
              injection hfi with hfi'
              subst hfi'
              simp [hgi, hii]
            · have hgp : ¬ g.id = iid := by rw [hgi]; exact fun hE => hii hE.symm
              simp [hgp, hii]

/-- The stock-mutating operations the spec's ledger invariant quantifies
over: automatic order deduction and manual adjustment. -/
inductive StockOp where
  | deduct (recipes : List Recipe) (items : List StockLine) (user_id : ℕ)
  | adjust (user_id ingredient_id : ℕ) (change_amount : ℚ) (reason : String)

/-- Run one stock operation against the state; a failed operation leaves
the state unchanged (its transaction is rolled back / never committed). -/
def applyStockOp (st : StockState) : StockOp → StockState
  | .deduct recipes items uid =>
    match check_and_deduct_stock recipes st items uid with
    | .ok st' => st'
    | .error _ => st
  | .adjust uid iid delta reason =>
    match adjust_stock st uid iid delta reason with
    | .ok st' => st'
    | .err _ => st

lemma applyStockOp_balance (st : StockState) (op : StockOp) (i : ℕ) :
    ∃ tail, (applyStockOp st op).adjustments = st.adjustments ++ tail ∧
      stockOf (applyStockOp st op) i = stockOf st i + deltaSum tail i := by
  cases op with
  | deduct recipes items uid =>
    have hsplit : applyStockOp st (.deduct recipes items uid)
        = if (collectShortages st.ingredients (ingredientRequirements recipes items)).isEmpty
          then (ingredientRequirements recipes items).foldl (deductOne uid) st else st := by
      unfold applyStockOp check_and_deduct_stock
      by_cases hsh : (collectShortages st.ingredients (ingredientRequirements recipes items)).isEmpty
      · simp [hsh]
      · simp [hsh]
    rw [hsplit]
    by_cases hsh : (collectShortages st.ingredients (ingredientRequirements recipes items)).isEmpty
    · rw [if_pos hsh]
      exact deduct_fold_balance uid _ st i
    · rw [if_neg hsh]
      exact ⟨[], by simp, by simp [deltaSum]⟩
  | adjust uid iid delta reason =>
    rcases adjust_stock_balance st uid iid delta reason i with herr | ⟨st', hok, ha, hs⟩
    · refine ⟨[], ?_, ?_⟩
      · simp only [applyStockOp, herr]
        simp
      · simp only [applyStockOp, herr]
        simp [deltaSum]
    · refine ⟨[⟨iid, delta, reason, uid⟩], ?_, ?_⟩
      · simp only [applyStockOp, hok]
        exact ha
      · simp only [applyStockOp, hok]
        exact hs

lemma foldl_applyStockOp_balance :
    ∀ (ops : List StockOp) (st : StockState) (i : ℕ),
    ∃ tail, (ops.foldl applyStockOp st).adjustments = st.adjustments ++ tail ∧
      stockOf (ops.foldl applyStockOp st) i = stockOf st i + deltaSum tail i := by
  intro ops
  induction ops with
  | nil => intro st i; exact ⟨[], by simp, by simp [deltaSum]⟩
  | cons op t ih =>
    intro st i
    rw [List.foldl_cons]
    obtain ⟨tail1, ha1, hs1⟩ := applyStockOp_balance st op i
    obtain ⟨tail2, ha2, hs2⟩ := ih (applyStockOp st op) i
    refine ⟨tail1 ++ tail2, ?_, ?_⟩
    · rw [ha2, ha1, List.append_assoc]
    · rw [hs2, hs1, deltaSum_append]
      ring

/-- C5 (amended): for the order-deduction and manual-adjustment operations,
starting from a state with an empty ledger, every ingredient's current
stock always equals its initial stock plus the sum of its recorded ledger
deltas — each of these operations updates the counter and the ledger in the
same atomic unit.  (The stock-invoice route is excluded: it increments
stock without appending any ledger record, see the counterexample.) -/
theorem claim_C5_ledger_invariant_amended
    (init : StockState) (ops : List StockOp) (i : ℕ) (hinit : init.adjustments = []) :
    stockOf (ops.foldl applyStockOp init) i
      = stockOf init i + deltaSum ((ops.foldl applyStockOp init).adjustments) i := by
  obtain ⟨tail, ha, hs⟩ := foldl_applyStockOp_balance ops init i
  rw [hs, ha, hinit, List.nil_append]

/-- An ingredient with 10 g of stock and an empty ledger. -/
def c5st : StockState := ⟨[⟨1, "Beans", "g", 10, true⟩], []⟩

/-- A stock invoice restocking 5 g at $2/g. -/
def c5inv : List InvoiceItem := [⟨1, 5, 2⟩]

/-- The state after the invoice: stock 15 g, ledger still empty. -/
def c5st' : StockState := ⟨[⟨1, "Beans", "g", 15, true⟩], []⟩

/-- Counterexample for C5: `create_stock_invoice` succeeds, raises the
ingredient's stock from 10 to 15, yet appends no `StockAdjustment` — so the
sum of ledger deltas (0) no longer accounts for the current stock, refuting
"every operation that changes current_stock appends a matching adjustment
record". -/
theorem claim_C5_counterexample :
    create_stock_invoice c5st c5inv = .ok c5st' ∧
    stockOf c5st 1 = 10 ∧
    stockOf c5st' 1 = 15 ∧
    c5st'.adjustments = c5st.adjustments ∧
    stockOf c5st' 1 ≠ stockOf c5st 1 + deltaSum c5st'.adjustments 1 := by
  refine ⟨?_, ?_, ?_, rfl, ?_⟩
  · norm_num [create_stock_invoice, invoiceItemValid, findIngredient, c5st, c5inv, c5st']
  · norm_num [stockOf, findIngredient, c5st]
  · norm_num [stockOf, findIngredient, c5st']
  · norm_num [stockOf, findIngredient, deltaSum, c5st, c5st']

/-- Witness for C5's amended theorem: a manual +5 adjustment on the concrete
state, with the empty-ledger hypothesis discharged by `rfl`. -/
theorem claim_C5_ledger_invariant_amended_witness :
    c5st.adjustments = [] ∧
    stockOf ([StockOp.adjust 7 1 5 "restock"].foldl applyStockOp c5st) 1
      = stockOf c5st 1
        + deltaSum (([StockOp.adjust 7 1 5 "restock"].foldl applyStockOp c5st).adjustments) 1 :=
  ⟨rfl, claim_C5_ledger_invariant_amended c5st [StockOp.adjust 7 1 5 "restock"] 1 rfl⟩

/-! ## Order status machine (`update_order_status`, order_routes.py 319-374) -/

/-- The `allowed_transitions` dict literal of `update_order_status`
(order_routes.py lines 336-350): current status → requested status → roles. -/
def allowed_transitions : List (String × List (String × List String)) :=
  [("pending_payment", [("paid_waiting_preparation", ["cashier", "manager"])]),
   ("paid_waiting_preparation", [("preparing", ["barista", "manager"])]),
   ("preparing", [("ready_for_pickup", ["barista", "manager"])]),
   ("ready_for_pickup", [("completed", ["cashier", "courier", "manager"])])]

/-- Python dict lookup (`d[k]` guarded by `k in d`). -/
def lookupTable {α : Type} (m : List (String × α)) (k : String) : Option α :=
  (m.find? (fun p => p.1 = k)).map (fun p => p.2)

/-- The outcome of a status-update request; each constructor carries the
stored order after the request (rejections leave it unchanged). -/
inductive UpdateResult where
  | badRequest (order : OrderRow)
  | forbidden (order : OrderRow)
  | ok (order : OrderRow)
deriving DecidableEq

/-- Embedding of `update_order_status`: a missing/empty status is a 400;
a (current status, requested status, role) triple outside
`allowed_transitions` is a 403 leaving the order unchanged; otherwise the
status is written, a cashier entering `paid_waiting_preparation` is stamped
with the payment method (default `simulated_cash_lbp`), and a barista
entering `preparing` is stamped as the preparer. -/
def update_order_status (order : OrderRow) (user_id : ℕ) (role : Role)
    (new_status : Option String) (payment_method : Option String) : UpdateResult :=
  let ns := new_status.getD ""
  if ns = "" then .badRequest order
  else
    match lookupTable allowed_transitions order.status.value with
    | none => .forbidden order
    | some inner =>
      match lookupTable inner ns with
      | none => .forbidden order
      | some roles =>
        if roles.contains role.value then
          let order1 := { order with status := (statusOfString ns).getD order.status }
          if ns = "paid_waiting_preparation" ∧ role.value = "cashier" then
            .ok { order1 with
                  cashier_id := some user_id
                  payment_method := some (payment_method.getD "simulated_cash_lbp") }
          else if ns = "preparing" ∧ role.value = "barista" then
            .ok { order1 with barista_id := some user_id }
          else .ok order1
        else .forbidden order

/-- The transition table exactly as the claim lists it, written over the
status and role enumerations (spec side, for comparison with the code's
string-keyed dict). -/
def specTransitionTable : List (OrderStatus × OrderStatus × List Role) :=
  [(.pending_payment, .paid_waiting_preparation, [.cashier, .manager]),
   (.paid_waiting_preparation, .preparing, [.barista, .manager]),
   (.preparing, .ready_for_pickup, [.barista, .manager]),
   (.ready_for_pickup, .completed, [.cashier, .courier, .manager])]

/-- Membership of a (from, to, role) triple in the claim's table. -/
def specAllowed (src tgt : OrderStatus) (r : Role) : Prop :=
  ∃ e ∈ specTransitionTable, e.1 = src ∧ e.2.1 = tgt ∧ r ∈ e.2.2

/-- The whitelist behaviour of `update_order_status`, shared by the C6 and
C10 developments: listed triples succeed and set the requested status,
unlisted triples are rejected with the order unchanged. -/
lemma update_whitelist :
    (∀ (order : OrderRow) (uid : ℕ) (role : Role) (tgt : OrderStatus) (pm : Option String),
      specAllowed order.status tgt role →
      ∃ o', update_order_status order uid role (some tgt.value) pm = .ok o' ∧
        o'.status = tgt) ∧
    (∀ (order : OrderRow) (uid : ℕ) (role : Role) (tgt : OrderStatus) (pm : Option String),
      ¬ specAllowed order.status tgt role →
      update_order_status order uid role (some tgt.value) pm = .forbidden order) := by
  constructor
  · intro order uid role tgt pm h
    obtain ⟨oid, ocn, ost, ocour, ocash, obar, opm, osu, osl, odu, odl, ofu, ofl, oer, ono⟩ := order
    dsimp only at h ⊢
    cases ost <;> cases tgt <;> cases role <;>
      first
        | exact absurd h (by unfold specAllowed specTransitionTable; decide)
        | simp [update_order_status, OrderStatus.value, Role.value, lookupTable,
            allowed_transitions, statusOfString]
  · intro order uid role tgt pm hna
    obtain ⟨oid, ocn, ost, ocour, ocash, obar, opm, osu, osl, odu, odl, ofu, ofl, oer, ono⟩ := order
    dsimp only at hna ⊢
    cases ost <;> cases tgt <;> cases role <;>
      first
        | exact absurd (by unfold specAllowed specTransitionTable; decide) hna
        | simp [update_order_status, OrderStatus.value, Role.value, lookupTable,
            allowed_transitions, statusOfString]

/-- C6: a status-update request succeeds exactly for the triples of the
claim's table — every listed (from, to, role) triple updates the stored
status to the requested one, and every triple outside the table (wrong
from-state, wrong to-state, or a role not permitted for it) is rejected
with a 403 that leaves the stored order unchanged. -/
theorem claim_C6_transition_whitelist :
    (∀ (order : OrderRow) (uid : ℕ) (role : Role) (tgt : OrderStatus) (pm : Option String),
      specAllowed order.status tgt role →
      ∃ o', update_order_status order uid role (some tgt.value) pm = .ok o' ∧
        o'.status = tgt) ∧
    (∀ (order : OrderRow) (uid : ℕ) (role : Role) (tgt : OrderStatus) (pm : Option String),
      ¬ specAllowed order.status tgt role →
      update_order_status order uid role (some tgt.value) pm = .forbidden order) :=
  update_whitelist

/-- A pending-payment order used to witness C6. -/
def c6order : OrderRow :=
  ⟨1, [], .pending_payment, 7, none, none, none, 0, 0, 0, 0, 0, 0, 90000, none⟩

/-- Witness for C6: the cashier may move `pending_payment` to
`paid_waiting_preparation` (hypothesis discharged by `decide`), and the
barista may not (its non-membership also discharged by `decide`). -/
theorem claim_C6_transition_whitelist_witness :
    (∃ o', update_order_status c6order 3 .cashier
        (some OrderStatus.paid_waiting_preparation.value) none = .ok o' ∧
      o'.status = .paid_waiting_preparation) ∧
    update_order_status c6order 3 .barista
        (some OrderStatus.paid_waiting_preparation.value) none = .forbidden c6order :=
  ⟨claim_C6_transition_whitelist.1 c6order 3 .cashier .paid_waiting_preparation none
      (by unfold c6order specAllowed specTransitionTable; decide),
   claim_C6_transition_whitelist.2 c6order 3 .barista .paid_waiting_preparation none
      (by unfold c6order specAllowed specTransitionTable; decide)⟩

/-- A status-update request: acting user, role, requested status, optional
payment method. -/
def applyUpdate (order : OrderRow) (req : ℕ × Role × OrderStatus × Option String) : OrderRow :=
  match update_order_status order req.1 req.2.1 (some req.2.2.1.value) req.2.2.2 with
  | .ok o' => o'
  | .badRequest _ => order
  | .forbidden _ => order

/-- No whitelisted transition targets `pending_payment`. -/
lemma spec_target_ne_pending (src tgt : OrderStatus) (r : Role)
    (h : specAllowed src tgt r) : tgt ≠ .pending_payment := by
  obtain ⟨e, he, h1, h2, h3⟩ := h
  fin_cases he <;> (subst h2; decide)

/-- Only a `pending_payment` source may transition into
`paid_waiting_preparation`. -/
lemma spec_paid_target_from_pending (src : OrderStatus) (r : Role)
    (h : specAllowed src .paid_waiting_preparation r) : src = .pending_payment := by
  obtain ⟨e, he, h1, h2, h3⟩ := h
  fin_cases he <;> first | (subst h1; rfl) | simp at h2

/-- One request cannot move a non-pending order into `pending_payment`. -/
lemma applyUpdate_not_pending (order : OrderRow)
    (req : ℕ × Role × OrderStatus × Option String)
    (h : order.status ≠ .pending_payment) :
    (applyUpdate order req).status ≠ .pending_payment := by
  rcases req with ⟨uid, role, tgt, pm⟩
  by_cases hall : specAllowed order.status tgt role
  · obtain ⟨o', hok, hst⟩ := update_whitelist.1 order uid role tgt pm hall
    simp only [applyUpdate, hok]
    rw [hst]
    exact spec_target_ne_pending _ _ _ hall
  · have hforb := update_whitelist.2 order uid role tgt pm hall
    simp only [applyUpdate, hforb]
    exact h

/-- C10: every order created through the order-creation endpoint starts in
`paid_waiting_preparation`, never `pending_payment`; consequently no
sequence of status-update requests ever brings such an order to
`pending_payment`, and the `pending_payment → paid_waiting_preparation`
transition can never fire on it. -/
theorem claim_C10_pending_payment_unreachable :
    (∀ (db : DB) (rate : ℚ) (factor : ℤ) (uid : ℕ) (today : List Char)
       (items : List OrderItemReq) (notes : Option String) (db' : DB) (order : OrderRow),
      create_order db rate factor uid today items notes = .ok db' order →
      order.status = .paid_waiting_preparation) ∧
    (∀ (order : OrderRow), order.status ≠ .pending_payment →
      ∀ (reqs : List (ℕ × Role × OrderStatus × Option String)),
        (reqs.foldl applyUpdate order).status ≠ .pending_payment) ∧
    (∀ (order : OrderRow) (uid : ℕ) (role : Role) (pm : Option String),
      order.status ≠ .pending_payment →
      ∀ o', update_order_status order uid role
          (some OrderStatus.paid_waiting_preparation.value) pm ≠ .ok o') := by
  refine ⟨?_, ?_, ?_⟩
  · intro db rate factor uid today items notes db' order h
    obtain ⟨-, -, -, -, -, hstatus, -⟩ :=
      create_order_ok_inv db rate factor uid today items notes db' order h
    exact hstatus
  · intro order h reqs
    induction reqs generalizing order with
    | nil => exact h
    | cons req t ih =>
      rw [List.foldl_cons]
      exact ih (applyUpdate order req) (applyUpdate_not_pending order req h)
  · intro order uid role pm h o' hok
    have hall : ¬ specAllowed order.status .paid_waiting_preparation role := by
      intro hA
      exact h (spec_paid_target_from_pending order.status role hA)
    have hforb := update_whitelist.2 order uid role .paid_waiting_preparation pm hall
    rw [hforb] at hok
    simp at hok

/-- Witness for C10: the concrete C4 order is created in
`paid_waiting_preparation`; a barista moving it to `preparing` still leaves
it off `pending_payment`; and no cashier can move it to
`paid_waiting_preparation`. -/
theorem claim_C10_pending_payment_unreachable_witness :
    c4order.status = .paid_waiting_preparation ∧
    ([(3, Role.barista, OrderStatus.preparing, (none : Option String))].foldl
        applyUpdate c4order).status ≠ .pending_payment ∧
    (∀ o', update_order_status c4order 3 .cashier
        (some OrderStatus.paid_waiting_preparation.value) none ≠ .ok o') :=
  ⟨claim_C10_pending_payment_unreachable.1 c4db 90000 5000 7 ("20241201".data) c4items none
      c4db' c4order c4_create_eval,
   claim_C10_pending_payment_unreachable.2.1 c4order (by unfold c4order; decide)
      [(3, Role.barista, OrderStatus.preparing, none)],
   claim_C10_pending_payment_unreachable.2.2 c4order 3 .cashier none
      (by unfold c4order; decide)⟩

/-! ## Discount applier (`app/routes/discount_routes.py`) -/

/-- The failure modes of the two discount-application routes. -/
inductive DiscError where
  | notFound
  | inactive
  | wrongTarget
  | alreadyApplied
deriving DecidableEq

/-- The outcome of a discount application; both constructors carry the
resulting database (errors return before any mutation is committed, so
they carry the input unchanged). -/
inductive DiscResult where
  | ok (db : DB) (amount_usd : ℚ) (amount_lbp : ℤ)
  | err (db : DB) (e : DiscError)
deriving DecidableEq

/-- The in-place order-total update both discount routes perform: add the
amounts to the running discount totals and recompute
`final = subtotal - discount_total` in each currency independently. -/
def orderUpd (order : OrderRow) (a : ℚ) (l : ℤ) : OrderRow :=
  { order with
    discount_total_usd := order.discount_total_usd + a
    discount_total_lbp_rounded := order.discount_total_lbp_rounded + l
    final_total_usd := order.subtotal_usd - (order.discount_total_usd + a)
    final_total_lbp_rounded :=
      order.subtotal_lbp_rounded - (order.discount_total_lbp_rounded + l) }

/-- Embedding of `apply_order_discount` (discount_routes.py lines 132-199):
resolve order and discount, require an active order-level discount not yet
applied to this order, compute the amount (percentage of the order subtotal,
or the fixed value capped at the subtotal), convert it at the order's stored
exchange rate, record the association row, and recompute
`final = subtotal - discount_total` independently in USD and LBP. -/
def apply_order_discount (db : DB) (factor : ℤ) (user_id : ℕ)
    (order_id discount_id : ℕ) : DiscResult :=
  match db.orders.find? (fun o => o.id = order_id) with
  | none => .err db .notFound
  | some order =>
    match db.discounts.find? (fun d => d.id = discount_id) with
    | none => .err db .notFound
    | some discount =>
      if ¬ discount.is_active then .err db .inactive
      else if discount.applies_to ≠ .order then .err db .wrongTarget
      else if (db.order_discounts.find?
          (fun od => od.order_id = order.id && od.discount_id = discount.id)).isSome then
        .err db .alreadyApplied
      else
        let discount_amount_usd :=
          if discount.discount_type = .percentage then
            order.subtotal_usd * (discount.discount_value / 100)
          else
            min discount.discount_value order.subtotal_usd
        let discount_amount_lbp :=
          (calculate_lbp_price (some discount_amount_usd)
            order.exchange_rate_at_order_time factor).getD 0
        let order' := orderUpd order discount_amount_usd discount_amount_lbp
        .ok { db with
              orders := db.orders.map (fun o => if o.id = order.id then order' else o)
              order_discounts := db.order_discounts ++
                [⟨order.id, discount.id, discount.name, discount_amount_usd,
                  discount_amount_lbp, user_id⟩] }
          discount_amount_usd discount_amount_lbp

/-- Embedding of `apply_item_discount` (discount_routes.py lines 202-274):
as for orders, but against an order item's line total, also accumulating
the amounts on the item row and on its parent order's totals.  The parent
order is reached through the `order_item.order` relationship; a dangling
foreign key would crash the route (rolled back), modelled as `notFound`. -/
def apply_item_discount (db : DB) (factor : ℤ) (user_id : ℕ)
    (order_item_id discount_id : ℕ) : DiscResult :=
  match db.order_items.find? (fun oi => oi.id = order_item_id) with
  | none => .err db .notFound
  | some order_item =>
    match db.discounts.find? (fun d => d.id = discount_id) with
    | none => .err db .notFound
    | some discount =>
      if ¬ discount.is_active then .err db .inactive
      else if discount.applies_to ≠ .item then .err db .wrongTarget
      else if (db.order_item_discounts.find?
          (fun r => r.order_item_id = order_item.id && r.discount_id = discount.id)).isSome then
        .err db .alreadyApplied
      else
        match db.orders.find? (fun o => o.id = order_item.order_id) with
        | none => .err db .notFound
        | some order =>
          let discount_amount_usd :=
            if discount.discount_type = .percentage then
              order_item.line_total_usd_at_order * (discount.discount_value / 100)
            else
              min discount.discount_value order_item.line_total_usd_at_order
          let discount_amount_lbp :=
            (calculate_lbp_price (some discount_amount_usd)
              order.exchange_rate_at_order_time factor).getD 0
          let order' := orderUpd order discount_amount_usd discount_amount_lbp
          .ok { db with
                order_items := db.order_items.map
                  (fun oi => if oi.id = order_item.id then
                    { oi with
                      discount_amount_usd := oi.discount_amount_usd + discount_amount_usd
                      discount_amount_lbp := oi.discount_amount_lbp + discount_amount_lbp }
                    else oi)
                orders := db.orders.map (fun o => if o.id = order.id then order' else o)
                order_item_discounts := db.order_item_discounts ++
                  [⟨order_item.id, discount.id, discount.name, discount_amount_usd,
                    discount_amount_lbp, user_id⟩] }
            discount_amount_usd discount_amount_lbp

/-- `find?` by key over a keyed in-place update. -/
lemma find?_key_map {α : Type} (l : List α) (key : α → ℕ) (j : ℕ) (f : α → α)
    (hk : ∀ x, key x = j → key (f x) = key x) (i : ℕ) :
    (l.map (fun x => if key x = j then f x else x)).find? (fun x => key x = i)
      = (l.find? (fun x => key x = i)).map (fun x => if key x = j then f x else x) := by
  induction l with
  | nil => simp
  | cons x t ih =>
    rw [List.map_cons]
    by_cases hi : key x = i
    · have hhead : key (if key x = j then f x else x) = i := by
        by_cases hj : key x = j
        · rw [if_pos hj, hk x hj, hi]
        · rw [if_neg hj, hi]
      rw [List.find?_cons_of_pos _ (by simpa using hhead),
        List.find?_cons_of_pos _ (by simpa using hi)]
      simp
    · have hhead : ¬ key (if key x = j then f x else x) = i := by
        by_cases hj : key x = j
        · rw [if_pos hj, hk x hj]; exact hi
        · rw [if_neg hj]; exact hi
      rw [List.find?_cons_of_neg _ (by simpa using hhead),
        List.find?_cons_of_neg _ (by simpa using hi)]
      exact ih

/-- Inversion of a successful `apply_order_discount`: the guards that must
have passed, the amount formulas, and the resulting state. -/
lemma apply_order_discount_ok_inv (db : DB) (factor : ℤ) (uid oid did : ℕ)
    (db1 : DB) (a : ℚ) (l : ℤ)
    (h : apply_order_discount db factor uid oid did = .ok db1 a l) :
    ∃ order discount,
      db.orders.find? (fun o => o.id = oid) = some order ∧
      db.discounts.find? (fun d => d.id = did) = some discount ∧
      discount.is_active = true ∧
      discount.applies_to = .order ∧
      (db.order_discounts.find?
        (fun od => od.order_id = order.id && od.discount_id = discount.id)).isSome = false ∧
      a = (if discount.discount_type = .percentage then
            order.subtotal_usd * (discount.discount_value / 100)
          else min discount.discount_value order.subtotal_usd) ∧
      l = (calculate_lbp_price (some a) order.exchange_rate_at_order_time factor).getD 0 ∧
      db1 = { db with
        orders := db.orders.map (fun o => if o.id = order.id then orderUpd order a l else o)
        order_discounts := db.order_discounts ++
          [⟨order.id, discount.id, discount.name, a, l, uid⟩] } := by
  unfold apply_order_discount at h
  split at h
  · exact absurd h (by simp)
  · split at h
    · exact absurd h (by simp)
    · split at h
      · exact absurd h (by simp)
      · split at h
        · exact absurd h (by simp)
        · split at h
          · exact absurd h (by simp)
          · rename_i oscr order hfo dscr discount hfd hact happ hnew
            simp only [DiscResult.ok.injEq] at h
            obtain ⟨hdb1, ha, hl⟩ := h
            rw [hl, ha] at hdb1
            refine ⟨order, discount, hfo, hfd, ?_, ?_, ?_, ha.symm, ?_, hdb1.symm⟩
            · simpa using hact
            · simpa using happ
            · simpa using hnew
            · rw [← ha, ← hl]

/-- Inversion of a successful `apply_item_discount`. -/
lemma apply_item_discount_ok_inv (db : DB) (factor : ℤ) (uid iid did : ℕ)
    (db1 : DB) (a : ℚ) (l : ℤ)
    (h : apply_item_discount db factor uid iid did = .ok db1 a l) :
    ∃ order_item discount order,
      db.order_items.find? (fun oi => oi.id = iid) = some order_item ∧
      db.discounts.find? (fun d => d.id = did) = some discount ∧
      discount.is_active = true ∧
      discount.applies_to = .item ∧
      (db.order_item_discounts.find?
        (fun r => r.order_item_id = order_item.id && r.discount_id = discount.id)).isSome
          = false ∧
      db.orders.find? (fun o => o.id = order_item.order_id) = some order ∧
      a = (if discount.discount_type = .percentage then
            order_item.line_total_usd_at_order * (discount.discount_value / 100)
          else min discount.discount_value order_item.line_total_usd_at_order) ∧
      l = (calculate_lbp_price (some a) order.exchange_rate_at_order_time factor).getD 0 ∧
      db1 = { db with
        order_items := db.order_items.map
          (fun oi => if oi.id = order_item.id then
            { oi with
              discount_amount_usd := oi.discount_amount_usd + a
              discount_amount_lbp := oi.discount_amount_lbp + l }
            else oi)
        orders := db.orders.map (fun o => if o.id = order.id then orderUpd order a l else o)
        order_item_discounts := db.order_item_discounts ++
          [⟨order_item.id, discount.id, discount.name, a, l, uid⟩] } := by
  unfold apply_item_discount at h
  split at h
  · exact absurd h (by simp)
  · split at h
    · exact absurd h (by simp)
    · split at h
      · exact absurd h (by simp)
      · split at h
        · exact absurd h (by simp)
        · split at h
          · exact absurd h (by simp)
          · split at h
            · exact absurd h (by simp)
            · rename_i iscr order_item hfoi dscr discount hfd hact happ hnew oscr order hford
              simp only [DiscResult.ok.injEq] at h
              obtain ⟨hdb1, ha, hl⟩ := h
              rw [hl, ha] at hdb1
              refine ⟨order_item, discount, order, hfoi, hfd, ?_, ?_, ?_, hford, ha.symm, ?_,
                hdb1.symm⟩
              · simpa using hact
              · simpa using happ
              · simpa using hnew
              · rw [← ha, ← hl]

/-- C8: once a discount has been applied to an order (or to an order item),
applying the same discount to the same target again is rejected with the
already-applied error, and the rejection returns the post-first-application
state unchanged — while the first application itself succeeded. -/
theorem claim_C8_discount_applied_once :
    (∀ (db : DB) (factor : ℤ) (uid uid2 oid did : ℕ) (db1 : DB) (a : ℚ) (l : ℤ),
      apply_order_discount db factor uid oid did = .ok db1 a l →
      apply_order_discount db1 factor uid2 oid did = .err db1 .alreadyApplied) ∧
    (∀ (db : DB) (factor : ℤ) (uid uid2 iid did : ℕ) (db1 : DB) (a : ℚ) (l : ℤ),
      apply_item_discount db factor uid iid did = .ok db1 a l →
      apply_item_discount db1 factor uid2 iid did = .err db1 .alreadyApplied) := by
  constructor
  · intro db factor uid uid2 oid did db1 a l h
    obtain ⟨order, discount, hfo, hfd, hact, happ, hnew, ha, hl, hdb1⟩ :=
      apply_order_discount_ok_inv db factor uid oid did db1 a l h
    have hfo1 : (db.orders.map
        (fun o => if o.id = order.id then orderUpd order a l else o)).find?
          (fun o => o.id = oid) = some (orderUpd order a l) := by
      rw [find?_key_map db.orders (fun o => o.id) order.id (fun _ => orderUpd order a l)
        (fun x hx => by simp [orderUpd, hx]) oid]
      rw [hfo]
      simp
    simp only [orderUpd] at hfo1
    have hsome : ((db.order_discounts ++
        ([⟨order.id, discount.id, discount.name, a, l, uid⟩] : List OrderDiscountRow)).find?
          (fun od => od.order_id = order.id && od.discount_id = discount.id)).isSome
          = true := by
      have hmem : (⟨order.id, discount.id, discount.name, a, l, uid⟩ : OrderDiscountRow)
          ∈ db.order_discounts ++ [⟨order.id, discount.id, discount.name, a, l, uid⟩] := by
        simp
      exact List.find?_isSome.mpr ⟨_, hmem, by simp⟩
    subst hdb1
    simp [apply_order_discount, orderUpd, hfo1, hfd, hact, happ, hsome, -List.find?_map]
  · intro db factor uid uid2 iid did db1 a l h
    obtain ⟨order_item, discount, order, hfoi, hfd, hact, happ, hnew, hford, ha, hl, hdb1⟩ :=
      apply_item_discount_ok_inv db factor uid iid did db1 a l h
    have hfoi1 : (db.order_items.map
        (fun oi => if oi.id = order_item.id then
          { oi with
            discount_amount_usd := oi.discount_amount_usd + a
            discount_amount_lbp := oi.discount_amount_lbp + l }
          else oi)).find? (fun oi => oi.id = iid)
        = some { order_item with
            discount_amount_usd := order_item.discount_amount_usd + a
            discount_amount_lbp := order_item.discount_amount_lbp + l } := by
      rw [find?_key_map db.order_items (fun oi => oi.id) order_item.id
        (fun oi => { oi with
          discount_amount_usd := oi.discount_amount_usd + a
          discount_amount_lbp := oi.discount_amount_lbp + l })
        (fun x hx => rfl) iid]
      rw [hfoi]
      simp
    have hsome : ((db.order_item_discounts ++
        ([⟨order_item.id, discount.id, discount.name, a, l, uid⟩] : List OrderItemDiscountRow)).find?
          (fun r => r.order_item_id = order_item.id && r.discount_id = discount.id)).isSome
          = true := by
      have hmem : (⟨order_item.id, discount.id, discount.name, a, l, uid⟩ : OrderItemDiscountRow)
          ∈ db.order_item_discounts ++ [⟨order_item.id, discount.id, discount.name, a, l, uid⟩] := by
        simp
      exact List.find?_isSome.mpr ⟨_, hmem, by simp⟩
    subst hdb1
    simp [apply_item_discount, hfoi1, hfd, hact, happ, hsome, -List.find?_map]

/-- Looking an order up after the keyed in-place update returns the updated
order. -/
lemma find?_updated_order (db : DB) (order : OrderRow) (a : ℚ) (l : ℤ) (oid : ℕ)
    (hfo : db.orders.find? (fun o => o.id = oid) = some order) :
    (db.orders.map (fun o => if o.id = order.id then orderUpd order a l else o)).find?
      (fun o => o.id = oid) = some (orderUpd order a l) := by
  rw [find?_key_map db.orders (fun o => o.id) order.id (fun _ => orderUpd order a l)
    (fun x hx => by simp [orderUpd, hx]) oid]
  rw [hfo]
  simp

/-- C7 (amended): a successful application records
`target_amount * value / 100` for a percentage discount and
`min(value, target_amount)` for a fixed one (target = order subtotal for
order discounts, line total for item discounts); the order's totals are
recomputed as `final = subtotal - discount_total` independently in USD and
in LBP (the LBP final is the LBP subtotal minus the LBP discount total,
never derived from the USD final); a fixed discount's amount never exceeds
its target, so a *first* fixed order discount cannot drive the final total
negative — but the cap uses the full subtotal, not the remaining total, so
later applications can (see the counterexample). -/
theorem claim_C7_discount_math_amended :
    (∀ (db : DB) (factor : ℤ) (uid oid did : ℕ) (db1 : DB) (a : ℚ) (l : ℤ)
       (order : OrderRow) (discount : DiscountRow),
      db.orders.find? (fun o => o.id = oid) = some order →
      db.discounts.find? (fun d => d.id = did) = some discount →
      apply_order_discount db factor uid oid did = .ok db1 a l →
      a = (if discount.discount_type = .percentage then
            order.subtotal_usd * (discount.discount_value / 100)
          else min discount.discount_value order.subtotal_usd) ∧
      calculate_lbp_price (some a) order.exchange_rate_at_order_time factor = some l ∧
      (∃ o', db1.orders.find? (fun o => o.id = oid) = some o' ∧
        o'.subtotal_usd = order.subtotal_usd ∧
        o'.subtotal_lbp_rounded = order.subtotal_lbp_rounded ∧
        o'.discount_total_usd = order.discount_total_usd + a ∧
        o'.discount_total_lbp_rounded = order.discount_total_lbp_rounded + l ∧
        o'.final_total_usd = o'.subtotal_usd - o'.discount_total_usd ∧
        o'.final_total_lbp_rounded = o'.subtotal_lbp_rounded - o'.discount_total_lbp_rounded ∧
        (discount.discount_type = .fixed_amount → order.discount_total_usd = 0 →
          0 ≤ o'.final_total_usd)) ∧
      db1.order_discounts = db.order_discounts ++
        [⟨order.id, discount.id, discount.name, a, l, uid⟩]) ∧
    (∀ (db : DB) (factor : ℤ) (uid iid did : ℕ) (db1 : DB) (a : ℚ) (l : ℤ)
       (order_item : OrderItemRow) (discount : DiscountRow) (order : OrderRow),
      db.order_items.find? (fun oi => oi.id = iid) = some order_item →
      db.discounts.find? (fun d => d.id = did) = some discount →
      db.orders.find? (fun o => o.id = order_item.order_id) = some order →
      apply_item_discount db factor uid iid did = .ok db1 a l →
      a = (if discount.discount_type = .percentage then
            order_item.line_total_usd_at_order * (discount.discount_value / 100)
          else min discount.discount_value order_item.line_total_usd_at_order) ∧
      calculate_lbp_price (some a) order.exchange_rate_at_order_time factor = some l ∧
      (discount.discount_type = .fixed_amount →
        a ≤ order_item.line_total_usd_at_order) ∧
      (∃ o', db1.orders.find? (fun o => o.id = order_item.order_id) = some o' ∧
        o'.discount_total_usd = order.discount_total_usd + a ∧
        o'.discount_total_lbp_rounded = order.discount_total_lbp_rounded + l ∧
        o'.final_total_usd = o'.subtotal_usd - o'.discount_total_usd ∧
        o'.final_total_lbp_rounded = o'.subtotal_lbp_rounded - o'.discount_total_lbp_rounded)) := by
  constructor
  · intro db factor uid oid did db1 a l order discount hfo hfd h
    obtain ⟨order2, discount2, hfo2, hfd2, hact, happ, hnew, ha, hl, hdb1⟩ :=
      apply_order_discount_ok_inv db factor uid oid did db1 a l h
    rw [hfo] at hfo2
    rw [hfd] at hfd2
    injection hfo2 with hfo2
    injection hfd2 with hfd2
    subst hfo2
    subst hfd2
    obtain ⟨n, hn⟩ := calculate_lbp_price_isSome a order.exchange_rate_at_order_time factor
    refine ⟨ha, ?_, ?_, ?_⟩
    · rw [hn, hl, hn]
      rfl
    · refine ⟨orderUpd order a l, ?_, rfl, rfl, rfl, rfl, rfl, rfl, ?_⟩
      · rw [hdb1]
        exact find?_updated_order db order a l oid hfo
      · intro htype hzero
        have hfix : a = min discount.discount_value order.subtotal_usd := by
          rw [ha, htype]
          simp
        have hle : a ≤ order.subtotal_usd := by
          rw [hfix]
          exact min_le_right _ _
        show 0 ≤ (orderUpd order a l).final_total_usd
        unfold orderUpd
        simp only [hzero]
        simp
        linarith
    · rw [hdb1]
  · intro db factor uid iid did db1 a l order_item discount order hfoi hfd hford h
    obtain ⟨oi2, discount2, order2, hfoi2, hfd2, hact, happ, hnew, hford2, ha, hl, hdb1⟩ :=
      apply_item_discount_ok_inv db factor uid iid did db1 a l h
    rw [hfoi] at hfoi2
    rw [hfd] at hfd2
    injection hfoi2 with hfoi2
    injection hfd2 with hfd2
    subst hfoi2
    subst hfd2
    rw [hford] at hford2
    injection hford2 with hford2
    subst hford2
    obtain ⟨n, hn⟩ := calculate_lbp_price_isSome a order.exchange_rate_at_order_time factor
    refine ⟨ha, ?_, ?_, ?_⟩
    · rw [hn, hl, hn]
      rfl
    · intro htype
      rw [ha, htype]
      simp only [reduceCtorEq, if_false]
      exact min_le_right _ _
    · refine ⟨orderUpd order a l, ?_, rfl, rfl, rfl, rfl⟩
      rw [hdb1]
      show (db.orders.map (fun o => if o.id = order.id then orderUpd order a l else o)).find?
        (fun o => o.id = order_item.order_id) = some (orderUpd order a l)
      exact find?_updated_order db order a l order_item.order_id hford

/-- A $10-off fixed order discount. -/
def c7disc1 : DiscountRow := ⟨1, "TenOff", .fixed_amount, 10, .order, true⟩

/-- A second, distinct $10-off fixed order discount. -/
def c7disc2 : DiscountRow := ⟨2, "TenOffAgain", .fixed_amount, 10, .order, true⟩

/-- A 50% item-level discount. -/
def c7disc3 : DiscountRow := ⟨3, "HalfItem", .percentage, 50, .item, true⟩

/-- A $15 order (1,350,000 LBP at rate 90000) with no discounts yet. -/
def c7order : OrderRow :=
  ⟨1, [], .paid_waiting_preparation, 7, none, none, none, 15, 1350000, 0, 0, 15, 1350000,
    90000, none⟩

/-- Its single $15 line item. -/
def c7item : OrderItemRow := ⟨1, 1, 10, "Latte", 1, none, none, 15, 1350000, 15, 1350000, 0, 0⟩

/-- The discount test database. -/
def c7db : DB :=
  ⟨[], [], [], ⟨[], []⟩, [c7order], [c7item], [c7disc1, c7disc2, c7disc3], [], [], 2⟩

/-- The order after the first $10 discount: final $5 / 450,000 LBP. -/
def c7order1 : OrderRow :=
  ⟨1, [], .paid_waiting_preparation, 7, none, none, none, 15, 1350000, 10, 900000, 5, 450000,
    90000, none⟩

/-- The database after the first $10 discount. -/
def c7db1 : DB :=
  ⟨[], [], [], ⟨[], []⟩, [c7order1], [c7item], [c7disc1, c7disc2, c7disc3],
    [⟨1, 1, "TenOff", 10, 900000, 7⟩], [], 2⟩

/-- The order after the second $10 discount: final −$5 / −450,000 LBP. -/
def c7order2 : OrderRow :=
  ⟨1, [], .paid_waiting_preparation, 7, none, none, none, 15, 1350000, 20, 1800000, -5,
    -450000, 90000, none⟩

/-- The database after the second $10 discount. -/
def c7db2 : DB :=
  ⟨[], [], [], ⟨[], []⟩, [c7order2], [c7item], [c7disc1, c7disc2, c7disc3],
    [⟨1, 1, "TenOff", 10, 900000, 7⟩, ⟨1, 2, "TenOffAgain", 10, 900000, 7⟩], [], 2⟩

/-- The line item after the 50% item discount ($7.50 recorded). -/
def c7item3 : OrderItemRow :=
  ⟨1, 1, 10, "Latte", 1, none, none, 15, 1350000, 15, 1350000, 15 / 2, 675000⟩

/-- The order after the 50% item discount. -/
def c7order3 : OrderRow :=
  ⟨1, [], .paid_waiting_preparation, 7, none, none, none, 15, 1350000, 15 / 2, 675000,
    15 / 2, 675000, 90000, none⟩

/-- The database after the 50% item discount. -/
def c7db3 : DB :=
  ⟨[], [], [], ⟨[], []⟩, [c7order3], [c7item3], [c7disc1, c7disc2, c7disc3], [],
    [⟨1, 3, "HalfItem", 15 / 2, 675000, 7⟩], 2⟩

lemma c7_apply1_eval : apply_order_discount c7db 5000 7 1 1 = .ok c7db1 10 900000 := by
  norm_num [apply_order_discount, orderUpd, calculate_lbp_price, roundHalfAwayZero,
    min_def, c7db, c7db1, c7order, c7order1, c7disc1, c7disc2, c7disc3,
    show (DiscountType.fixed_amount = DiscountType.percentage) = False by simp]

lemma c7_apply2_eval : apply_order_discount c7db1 5000 7 1 2 = .ok c7db2 10 900000 := by
  norm_num [apply_order_discount, orderUpd, calculate_lbp_price, roundHalfAwayZero,
    min_def, c7db1, c7db2, c7order1, c7order2, c7disc1, c7disc2, c7disc3,
    show (DiscountType.fixed_amount = DiscountType.percentage) = False by simp]

lemma c7_apply3_eval : apply_item_discount c7db 5000 7 1 3 = .ok c7db3 (15 / 2) 675000 := by
  norm_num [apply_item_discount, orderUpd, calculate_lbp_price, roundHalfAwayZero,
    min_def, c7db, c7db3, c7order, c7order3, c7item, c7item3, c7disc1, c7disc2, c7disc3]

/-- Counterexample for C7: two distinct $10 fixed discounts both apply
successfully to a $15 order (each capped at the full subtotal, not the
remaining total), leaving a final total of −$5 — so "a fixed-amount
discount can never make the resulting final total negative" is false as a
universal statement. -/
theorem claim_C7_counterexample :
    apply_order_discount c7db 5000 7 1 1 = .ok c7db1 10 900000 ∧
    apply_order_discount c7db1 5000 7 1 2 = .ok c7db2 10 900000 ∧
    c7db2.orders.find? (fun o => o.id = 1) = some c7order2 ∧
    c7order2.final_total_usd = -5 ∧
    c7order2.final_total_usd < 0 := by
  refine ⟨c7_apply1_eval, c7_apply2_eval, ?_, ?_, ?_⟩
  · norm_num [c7db2, c7order2]
  · norm_num [c7order2]
  · norm_num [c7order2]

/-- Witness for C7: the amended theorem applied to the first $10 fixed
discount on the $15 order and to the 50% item discount, with all lookup and
success hypotheses discharged on the concrete database. -/
theorem claim_C7_discount_math_amended_witness :
    (10 : ℚ) = (if c7disc1.discount_type = .percentage then
        c7order.subtotal_usd * (c7disc1.discount_value / 100)
      else min c7disc1.discount_value c7order.subtotal_usd) ∧
    (∃ o', c7db1.orders.find? (fun o => o.id = 1) = some o' ∧
      o'.subtotal_usd = c7order.subtotal_usd ∧
      o'.subtotal_lbp_rounded = c7order.subtotal_lbp_rounded ∧
      o'.discount_total_usd = c7order.discount_total_usd + 10 ∧
      o'.discount_total_lbp_rounded = c7order.discount_total_lbp_rounded + 900000 ∧
      o'.final_total_usd = o'.subtotal_usd - o'.discount_total_usd ∧
      o'.final_total_lbp_rounded = o'.subtotal_lbp_rounded - o'.discount_total_lbp_rounded ∧
      (c7disc1.discount_type = .fixed_amount → c7order.discount_total_usd = 0 →
        0 ≤ o'.final_total_usd)) ∧
    (c7disc3.discount_type = .fixed_amount → (15 : ℚ) / 2 ≤ c7item.line_total_usd_at_order) := by
  have h1 := claim_C7_discount_math_amended.1 c7db 5000 7 1 1 c7db1 10 900000 c7order c7disc1
    (by norm_num [c7db, c7order, c7order1]) (by norm_num [c7db, c7disc1]) c7_apply1_eval
  have h3 := claim_C7_discount_math_amended.2 c7db 5000 7 1 3 c7db3 (15 / 2) 675000 c7item
    c7disc3 c7order (by norm_num [c7db, c7item]) (by norm_num [c7db, c7disc1, c7disc2, c7disc3])
    (by norm_num [c7db, c7item, c7order]) c7_apply3_eval
  exact ⟨h1.1, h1.2.2.1, h3.2.2.1⟩

/-- Witness for C8: the $10 order discount and 50% item discount each apply
once and are rejected on re-application with the state unchanged. -/
theorem claim_C8_discount_applied_once_witness :
    apply_order_discount c7db 5000 7 1 1 = .ok c7db1 10 900000 ∧
    apply_order_discount c7db1 5000 7 1 1 = .err c7db1 .alreadyApplied ∧
    apply_item_discount c7db 5000 7 1 3 = .ok c7db3 (15 / 2) 675000 ∧
    apply_item_discount c7db3 5000 7 1 3 = .err c7db3 .alreadyApplied :=
  ⟨c7_apply1_eval,
   claim_C8_discount_applied_once.1 c7db 5000 7 7 1 1 c7db1 10 900000 c7_apply1_eval,
   c7_apply3_eval,
   claim_C8_discount_applied_once.2 c7db 5000 7 7 1 3 c7db3 (15 / 2) 675000 c7_apply3_eval⟩

/-! ## Customer-number counter (C9): lemmas about `generate_customer_number` -/

/-- Character code of a decimal digit character. -/
lemma digitChar_toNat (d : ℕ) (h : d < 10) : (Nat.digitChar d).toNat = 48 + d := by
  interval_cases d <;> rfl

/-- Decimal digit characters satisfy `Char.isDigit`. -/
lemma digitChar_isDigit (d : ℕ) (h : d < 10) : (Nat.digitChar d).isDigit = true := by
  interval_cases d <;> rfl

/-- Decimal digit characters are not the dash. -/
lemma digitChar_ne_dash (d : ℕ) (h : d < 10) : ¬ Nat.digitChar d = '-' := by
  interval_cases d <;> decide

/-- Prepending a common prefix preserves the lexicographic comparison. -/
lemma lexLt_append_left (p : List Char) : ∀ x y, lexLt (p ++ x) (p ++ y) = lexLt x y := by
  induction p with
  | nil => intro x y; rfl
  | cons c t ih =>
    intro x y
    simp only [List.cons_append, lexLt, lt_irrefl, if_false]
    exact ih x y

/-- On three-digit zero-padded counters, the string order agrees with the
numeric order. -/
lemma lexLt_pad3 (a b : ℕ) (ha : a ≤ 999) (hb : b ≤ 999) :
    lexLt (pad3 a) (pad3 b) = decide (a < b) := by
  unfold pad3
  rw [if_pos ha, if_pos hb]
  have h1 : a / 100 < 10 := by omega
  have h2 : a / 10 % 10 < 10 := by omega
  have h3 : a % 10 < 10 := by omega
  have h4 : b / 100 < 10 := by omega
  have h5 : b / 10 % 10 < 10 := by omega
  have h6 : b % 10 < 10 := by omega
  simp only [lexLt, digitChar_toNat _ h1, digitChar_toNat _ h2, digitChar_toNat _ h3,
    digitChar_toNat _ h4, digitChar_toNat _ h5, digitChar_toNat _ h6]
  rcases lt_trichotomy (a / 100) (b / 100) with h | h | h
  · rw [if_pos (by omega)]
    have : a < b := by omega
    simp [this]
  · rw [if_neg (by omega), if_neg (by omega)]
    rcases lt_trichotomy (a / 10 % 10) (b / 10 % 10) with h' | h' | h'
    · rw [if_pos (by omega)]
      have : a < b := by omega
      simp [this]
    · rw [if_neg (by omega), if_neg (by omega)]
      rcases lt_trichotomy (a % 10) (b % 10) with h'' | h'' | h''
      · rw [if_pos (by omega)]
        have : a < b := by omega
        simp [this]
      · rw [if_neg (by omega), if_neg (by omega)]
        have : ¬ a < b := by omega
        simp [lexLt, this]
      · rw [if_neg (by omega), if_pos (by omega)]
        have : ¬ a < b := by omega
        simp [this]
    · rw [if_neg (by omega), if_pos (by omega)]
      have : ¬ a < b := by omega
      simp [this]
  · rw [if_neg (by omega), if_pos (by omega)]
    have : ¬ a < b := by omega
    simp [this]

/-- On full well-formed customer numbers for a fixed day, the string order
agrees with the numeric order of the counters. -/
lemma lexLt_fmt (today : List Char) (a b : ℕ) (ha : a ≤ 999) (hb : b ≤ 999) :
    lexLt (today ++ '-' :: pad3 a) (today ++ '-' :: pad3 b) = decide (a < b) := by
  have h1 : today ++ '-' :: pad3 a = (today ++ ['-']) ++ pad3 a := by simp
  have h2 : today ++ '-' :: pad3 b = (today ++ ['-']) ++ pad3 b := by simp
  rw [h1, h2, lexLt_append_left, lexLt_pad3 a b ha hb]

/-- The `maxString` fold over well-formed same-day customer numbers computes
the number whose counter is the numeric maximum. -/
lemma maxString_fold (today : List Char) :
    ∀ (cs : List ℕ) (m : ℕ), m ≤ 999 → (∀ c ∈ cs, c ≤ 999) →
    (cs.map (fun c => today ++ '-' :: pad3 c)).foldl
      (fun acc s =>
        match acc with
        | none => some s
        | some mx => if lexLt mx s then some s else some mx)
      (some (today ++ '-' :: pad3 m))
      = some (today ++ '-' :: pad3 (cs.foldl Nat.max m)) := by
  intro cs
  induction cs with
  | nil => intro m hm hall; rfl
  | cons c rest ih =>
    intro m hm hall
    have hc : c ≤ 999 := hall c (by simp)
    have hrest : ∀ x ∈ rest, x ≤ 999 := fun x hx => hall x (by simp [hx])
    rw [List.map_cons, List.foldl_cons]
    by_cases hlt : m < c
    · rw [show (match some (today ++ '-' :: pad3 m) with
          | none => some (today ++ '-' :: pad3 c)
          | some mx => if lexLt mx (today ++ '-' :: pad3 c) then some (today ++ '-' :: pad3 c)
              else some mx)
          = some (today ++ '-' :: pad3 c) from by
        rw [show (match some (today ++ '-' :: pad3 m) with
            | none => some (today ++ '-' :: pad3 c)
            | some mx => if lexLt mx (today ++ '-' :: pad3 c) then some (today ++ '-' :: pad3 c)
                else some mx)
            = if lexLt (today ++ '-' :: pad3 m) (today ++ '-' :: pad3 c)
              then some (today ++ '-' :: pad3 c) else some (today ++ '-' :: pad3 m) from rfl]
        rw [lexLt_fmt today m c hm hc]
        simp [hlt]]
      rw [List.foldl_cons, show Nat.max m c = c from max_eq_right (le_of_lt hlt)]
      exact ih c hc hrest
    · rw [show (match some (today ++ '-' :: pad3 m) with
          | none => some (today ++ '-' :: pad3 c)
          | some mx => if lexLt mx (today ++ '-' :: pad3 c) then some (today ++ '-' :: pad3 c)
              else some mx)
          = some (today ++ '-' :: pad3 m) from by
        rw [show (match some (today ++ '-' :: pad3 m) with
            | none => some (today ++ '-' :: pad3 c)
            | some mx => if lexLt mx (today ++ '-' :: pad3 c) then some (today ++ '-' :: pad3 c)
                else some mx)
            = if lexLt (today ++ '-' :: pad3 m) (today ++ '-' :: pad3 c)
              then some (today ++ '-' :: pad3 c) else some (today ++ '-' :: pad3 m) from rfl]
        rw [lexLt_fmt today m c hm hc]
        simp [hlt]]
      rw [List.foldl_cons, show Nat.max m c = m from max_eq_left (le_of_not_lt hlt)]
      exact ih m hm hrest

/-- Splitting a dash-free string yields the string itself as a singleton. -/
lemma splitDash_no_dash (cs : List Char) (h : '-' ∉ cs) : splitDash cs = [cs] := by
  induction cs with
  | nil => rfl
  | cons c t ih =>
    have hc : ¬ c = '-' := fun hE => h (hE ▸ List.mem_cons_self c t)
    have ht : '-' ∉ t := fun hE => h (List.mem_cons_of_mem c hE)
    rw [show splitDash (c :: t) = (match splitDash t with
      | [] => [[c]]
      | h :: tl => if c = '-' then [] :: h :: tl else (c :: h) :: tl) from rfl]
    rw [ih ht]
    simp [hc]

/-- Prepending a dash-free prefix only extends the first split component. -/
lemma splitDash_prepend (rest : List Char) (hd : List Char) (tl : List (List Char))
    (hrest : splitDash rest = hd :: tl) :
    ∀ (p : List Char), '-' ∉ p → splitDash (p ++ rest) = (p ++ hd) :: tl := by
  intro p
  induction p with
  | nil => intro _; simpa using hrest
  | cons c t ih =>
    intro hp
    have hc : ¬ c = '-' := fun hE => hp (hE ▸ List.mem_cons_self c t)
    have ht : '-' ∉ t := fun hE => hp (List.mem_cons_of_mem c hE)
    rw [List.cons_append]
    rw [show splitDash (c :: (t ++ rest)) = (match splitDash (t ++ rest) with
      | [] => [[c]]
      | h :: tl => if c = '-' then [] :: h :: tl else (c :: h) :: tl) from rfl]
    rw [ih ht]
    simp [hc]

/-- Three-digit padded counters contain no dash. -/
lemma pad3_no_dash (m : ℕ) (hm : m ≤ 999) : '-' ∉ pad3 m := by
  unfold pad3
  rw [if_pos hm]
  intro hmem
  simp only [List.mem_cons, List.mem_singleton] at hmem
  rcases hmem with h | h | h
  · exact digitChar_ne_dash (m / 100) (by omega) h.symm
  · exact digitChar_ne_dash (m / 10 % 10) (by omega) h.symm
  · rcases h with h | h
    · exact digitChar_ne_dash (m % 10) (by omega) h.symm
    · simp at h

/-- Splitting a well-formed customer number recovers the date and the padded
counter. -/
lemma splitDash_fmt (today : List Char) (htoday : '-' ∉ today) (m : ℕ) (hm : m ≤ 999) :
    splitDash (today ++ '-' :: pad3 m) = [today, pad3 m] := by
  have h1 : splitDash ('-' :: pad3 m) = [[], pad3 m] := by
    rw [show splitDash ('-' :: pad3 m) = (match splitDash (pad3 m) with
      | [] => [['-']]
      | h :: tl => if '-' = '-' then [] :: h :: tl else ('-' :: h) :: tl) from rfl]
    rw [splitDash_no_dash (pad3 m) (pad3_no_dash m hm)]
    simp
  have := splitDash_prepend ('-' :: pad3 m) [] [pad3 m] h1 today htoday
  simpa using this

/-- Parsing a three-digit padded counter returns the counter. -/
lemma digitsToNat_pad3 (m : ℕ) (hm : m ≤ 999) : digitsToNat? (pad3 m) = some m := by
  unfold pad3 digitsToNat?
  rw [if_pos hm]
  rw [if_pos ?_]
  · simp only [List.foldl_cons, List.foldl_nil]
    rw [digitChar_toNat (m / 100) (by omega), digitChar_toNat (m / 10 % 10) (by omega),
      digitChar_toNat (m % 10) (by omega)]
    congr 1
    omega
  · refine ⟨by simp, ?_⟩
    simp only [List.all_cons, List.all_nil, Bool.and_true]
    rw [digitChar_isDigit (m / 100) (by omega), digitChar_isDigit (m / 10 % 10) (by omega),
      digitChar_isDigit (m % 10) (by omega)]
    rfl

/-- A fold of `Nat.max` over counters bounded by 999 stays bounded by 999. -/
lemma foldl_max_le (l : List ℕ) : ∀ (m : ℕ), m ≤ 999 → (∀ c ∈ l, c ≤ 999) →
    l.foldl Nat.max m ≤ 999 := by
  induction l with
  | nil => intro m hm _; simpa using hm
  | cons c rest ih =>
    intro m hm hall
    rw [List.foldl_cons]
    exact ih (Nat.max m c) (by
      have := hall c (by simp)
      exact max_le hm this) (fun x hx => hall x (by simp [hx]))

/-- The numeric counter encoded in a customer number: the parsed part after
the first dash (0 when absent or unparsable). -/
def counterOf (cn : List Char) : ℕ :=
  match splitDash cn with
  | _ :: c :: _ => (digitsToNat? c).getD 0
  | _ => 0

/-- C9 (amended): the generated customer number defaults to counter 1 when no
order is dated today, ignores customer numbers of other days entirely, and —
PROVIDED every stored counter for today is a well-formed three-digit value
(≤ 999) — equals today's date, a dash, and the numeric maximum of today's
counters plus one, zero-padded to three digits. Beyond 999 the claimed
`max + 1` law fails because the maximum is taken on STRINGS
(see the counterexample: `999` sorts above `1000`). -/
theorem claim_C9_customer_number_amended :
    (∀ (today : List Char) (cns : List (List Char)),
      cns.filter (fun cn => (today ++ ['-']).isPrefixOf cn) = [] →
      generate_customer_number today cns = today ++ ['-'] ++ pad3 1) ∧
    (∀ (today : List Char) (l1 l2 : List (List Char)),
      (∀ cn ∈ l2, (today ++ ['-']).isPrefixOf cn = false) →
      generate_customer_number today (l1 ++ l2) = generate_customer_number today l1) ∧
    (∀ (today : List Char) (cns : List (List Char)) (counters : List ℕ),
      '-' ∉ today →
      cns.filter (fun cn => (today ++ ['-']).isPrefixOf cn)
        = counters.map (fun c => today ++ '-' :: pad3 c) →
      counters ≠ [] →
      (∀ c ∈ counters, c ≤ 999) →
      generate_customer_number today cns
        = today ++ ['-'] ++ pad3 (counters.foldl Nat.max 0 + 1)) := by
  refine ⟨?_, ?_, ?_⟩
  · intro today cns hfilter
    simp only [generate_customer_number]
    rw [hfilter]
    rfl
  · intro today l1 l2 h
    have h2 : List.filter (fun cn => (today ++ ['-']).isPrefixOf cn) l2 = [] := by
      rw [List.filter_eq_nil_iff]
      intro cn hcn
      simp [h cn hcn]
    simp only [generate_customer_number]
    rw [List.filter_append, h2, List.append_nil]
  · intro today cns counters hdash hfilter hne h999
    simp only [generate_customer_number]
    rw [hfilter]
    obtain ⟨c0, rest, rfl⟩ := List.exists_cons_of_ne_nil hne
    have hc0 : c0 ≤ 999 := h999 c0 (by simp)
    have hrest : ∀ x ∈ rest, x ≤ 999 := fun x hx => h999 x (by simp [hx])
    have hmax : maxString ((c0 :: rest).map (fun c => today ++ '-' :: pad3 c))
        = some (today ++ '-' :: pad3 (rest.foldl Nat.max c0)) := by
      unfold maxString
      rw [List.map_cons, List.foldl_cons]
      exact maxString_fold today rest c0 hc0 hrest
    have hb : rest.foldl Nat.max c0 ≤ 999 := foldl_max_le rest c0 hc0 hrest
    simp only [hmax, splitDash_fmt today hdash (rest.foldl Nat.max c0) hb,
      digitsToNat_pad3 (rest.foldl Nat.max c0) hb]
    rw [List.foldl_cons, show Nat.max 0 c0 = c0 from max_eq_right (Nat.zero_le c0)]

/-- Counterexample to C9 as stated: with today's stored numbers
`20241201-999` and `20241201-1000`, the string-wise maximum is `20241201-999`
(since `'9' > '1'` bytewise), so the generated number is `20241201-1000` —
a DUPLICATE of an existing number, whose counter 1000 is not the numeric
max 1000 plus 1 = 1001. -/
theorem claim_C9_counterexample :
    (generate_customer_number ("20241201".data)
        [("20241201-999").data, ("20241201-1000").data]
      ∈ [("20241201-999").data, ("20241201-1000").data]) ∧
    counterOf (generate_customer_number ("20241201".data)
        [("20241201-999").data, ("20241201-1000").data]) = 1000 ∧
    Nat.max (counterOf (("20241201-999").data)) (counterOf (("20241201-1000").data)) + 1
      = 1001 := by
  decide

/-- Witness for C9 (amended): on a store with today's `20241201-007` and
yesterday's `20241130-950`, the generated number is `20241201-008`. -/
theorem claim_C9_customer_number_amended_witness :
    generate_customer_number ("20241201".data)
      [("20241201-007").data, ("20241130-950").data]
      = ("20241201".data) ++ ['-'] ++ pad3 ([7].foldl Nat.max 0 + 1) :=
  claim_C9_customer_number_amended.2.2 _ _ [7] (by decide) (by decide) (by decide) (by decide)


end Cafe24
